import Mathlib

/-!
# Verification of the spectra shader-module core

This development shallowly embeds the core of `src/src/render/shader/module.rs`:
the module resolver (`deps` / `deps_no_cycle` / `gather`) and the pipeline
lowering (`to_glsl_setup` and its sink functions), together with the parts of
the abstract syntax tree of the base shading language that the core consumes.

The AST types mirror the external `glsl` crate's AST as used by `module.rs`
(only the constructors the core constructs or inspects are modelled).  The
helper functions of the `cheddar::syntax` module and the `glsl::writer`
pretty-printer are not part of the repository's staged sources; each of their
models carries a doc comment starting `Modelled from the spec:` and follows the
spec's description of the helper.  Everything else is translated from
`module.rs` directly.

Rust panics (out-of-bounds indexing, `Option::unwrap`) are modelled by the
`Res.crash` result; fuel exhaustion of the resolver's recursion is modelled by
`none` in an outer `Option` layer.
-/

set_option maxRecDepth 8192

namespace Spectra

/-! ## Base-language AST (the `glsl` crate's types, as consumed by the core) -/

/-- Storage qualifiers (subset used by the core). -/
inductive StorageQualifier where
  | Const
  | In
  | Out
  | Uniform

/-- Assignment operators (the core only builds `Equal`). -/
inductive AssignmentOp where
  | Equal

mutual

/-- Expressions (subset used by the core). -/
inductive Expr where
  | Variable (name : String)
  | IntConst (value : Int)
  | Assignment (lhs : Expr) (op : AssignmentOp) (rhs : Expr)
  | Dot (e : Expr) (field : String)
  | Bracket (e : Expr) (spec : ArraySpecifier)
  | FunCall (fi : FunIdentifier) (args : List Expr)

/-- Function identifiers in a call. -/
inductive FunIdentifier where
  | Identifier (name : String)
  | Expr (e : Expr)

/-- Array specifiers. -/
inductive ArraySpecifier where
  | Unsized
  | ExplicitlySized (size : Expr)

end

/-- A single layout-qualifier entry, e.g. `location = 0` or `points`. -/
inductive LayoutQualifierSpec where
  | Identifier (name : String) (e : Option Expr)
  | Shared

/-- A `layout(...)` qualifier. -/
structure LayoutQualifier where
  ids : List LayoutQualifierSpec

/-- One entry of a type qualifier. -/
inductive TypeQualifierSpec where
  | Storage (s : StorageQualifier)
  | Layout (l : LayoutQualifier)

/-- A type qualifier: an ordered list of entries. -/
structure TypeQualifier where
  qualifiers : List TypeQualifierSpec

mutual

/-- Non-array type specifiers (subset used by the core). -/
inductive TypeSpecifierNonArray where
  | Void
  | Float
  | Vec2
  | Vec3
  | Vec4
  | TypeName (name : String)
  | Struct (s : StructSpecifier)

/-- A type specifier: a non-array type with an optional array specifier. -/
inductive TypeSpecifier where
  | mk (ty : TypeSpecifierNonArray) (array_specifier : Option ArraySpecifier)

/-- A struct specifier: optional name and field list. -/
inductive StructSpecifier where
  | mk (name : Option String) (fields : List StructFieldSpecifier)

/-- A struct field: optional qualifier, a type, and arrayed identifiers. -/
inductive StructFieldSpecifier where
  | mk (qualifier : Option TypeQualifier) (ty : TypeSpecifier)
       (identifiers : List (String × Option ArraySpecifier))

end

def TypeSpecifier.ty : TypeSpecifier → TypeSpecifierNonArray
  | .mk t _ => t

def TypeSpecifier.array_specifier : TypeSpecifier → Option ArraySpecifier
  | .mk _ a => a

def StructSpecifier.name : StructSpecifier → Option String
  | .mk n _ => n

def StructSpecifier.fields : StructSpecifier → List StructFieldSpecifier
  | .mk _ f => f

def StructFieldSpecifier.qualifier : StructFieldSpecifier → Option TypeQualifier
  | .mk q _ _ => q

def StructFieldSpecifier.ty : StructFieldSpecifier → TypeSpecifier
  | .mk _ t _ => t

def StructFieldSpecifier.identifiers :
    StructFieldSpecifier → List (String × Option ArraySpecifier)
  | .mk _ _ ids => ids

/-- A fully specified type: optional qualifier plus type specifier. -/
structure FullySpecifiedType where
  qualifier : Option TypeQualifier
  ty : TypeSpecifier

/-- Initializers (the core only builds `Simple`). -/
inductive Initializer where
  | Simple (e : Expr)

/-- A single declaration (`vec3 x = e`). -/
structure SingleDeclaration where
  ty : FullySpecifiedType
  name : Option String
  array_specifier : Option ArraySpecifier
  initializer : Option Initializer

/-- A follow-up declarator in an init-declarator list (`..., y, z;`). -/
structure SingleDeclarationNoType where
  name : String
  array_specifier : Option ArraySpecifier
  initializer : Option Initializer

/-- An init-declarator list: head declaration plus tail declarators. -/
structure InitDeclaratorList where
  head : SingleDeclaration
  tail : List SingleDeclarationNoType

/-- An interface block. -/
structure Block where
  qualifier : TypeQualifier
  name : String
  fields : List StructFieldSpecifier
  identifier : Option (String × Option ArraySpecifier)

/-- Declarations (subset used by the core). -/
inductive Declaration where
  | InitDeclaratorList (l : InitDeclaratorList)
  | Block (b : Block)
  | Global (q : TypeQualifier) (ids : List String)

mutual

/-- Statements. -/
inductive Statement where
  | Simple (s : SimpleStatement)
  | Compound (c : CompoundStatement)

/-- Simple statements (subset used by the core). -/
inductive SimpleStatement where
  | Declaration (d : Declaration)
  | Expression (e : Option Expr)

/-- A compound statement: a brace-enclosed statement list. -/
inductive CompoundStatement where
  | mk (statement_list : List Statement)

end

def CompoundStatement.statement_list : CompoundStatement → List Statement
  | .mk l => l

/-- A function parameter declarator (type, name, optional array specifier). -/
structure FunctionParameterDeclarator where
  ty : TypeSpecifier
  name : String
  array_spec : Option ArraySpecifier

/-- A function parameter: named, or unnamed (type only). -/
inductive FunctionParameterDeclaration where
  | Named (q : Option TypeQualifier) (d : FunctionParameterDeclarator)
  | Unnamed (q : Option TypeQualifier) (ty : TypeSpecifier)

/-- A function prototype. -/
structure FunctionPrototype where
  ty : FullySpecifiedType
  name : String
  parameters : List FunctionParameterDeclaration

/-- A function definition. -/
structure FunctionDefinition where
  prototype : FunctionPrototype
  statement : CompoundStatement

/-- External declarations (subset used by the core). -/
inductive ExternalDeclaration where
  | Declaration (d : Declaration)
  | FunctionDefinition (fd : FunctionDefinition)

/-! ## Cheddar modules and the resolver (`module.rs`) -/

/-- `ModuleKey` is a newtype over a dotted path string (`foo.bar.zoo`). -/
abbrev ModuleKey := String

/-- A dotted module path as parsed (`foo.bar.zoo` as `["foo","bar","zoo"]`). -/
structure ModulePath where
  path : List String

/-- One `from m import (syms)` entry; the symbol list is parsed but ignored. -/
structure ImportList where
  module : ModulePath
  list : List String

/-- A cheddar module: imports plus base-language declarations.  The Rust
`Module` newtype wraps `cheddar::syntax::Module`, which holds exactly these
two fields. -/
structure Module where
  imports : List ImportList
  glsl : List ExternalDeclaration

/-- The store interface the resolver consumes: `get(key) -> Option<Module>`. -/
abbrev Store := ModuleKey → Option Module

/-- Errors of the resolver. -/
inductive DepsError where
  | Cycle (a b : ModuleKey)
  | LoadError (k : ModuleKey)

/-- The mutable state of `deps_no_cycle`: the `parents` stack and `deps` list. -/
abbrev DepsState := List ModuleKey × List ModuleKey

/-- The keys a module imports, in source order: each import's dotted path
joined with `"."` (`ModuleKey(module_path.path.join("."))`). -/
def Module.importKeys (m : Module) : List ModuleKey :=
  m.imports.map (fun il => String.intercalate "." il.module.path)

/-- The body of `deps_no_cycle`'s `for` loop over the import list, with the
recursive call abstracted as `recur`.  Mirrors `module.rs` lines 205-224:
skip a key already in `deps`; a key in `parents` is a cycle; a key the store
cannot load is a load error; otherwise recurse, then push the key to `deps`
and pop `parents`.  `none` propagates fuel exhaustion. -/
def deps_loop (recur : Module → ModuleKey → List ModuleKey → List ModuleKey →
    Option (Except DepsError DepsState)) (store : Store) :
    List ModuleKey → List ModuleKey → List ModuleKey →
    Option (Except DepsError DepsState)
  | [], parents, deps => some (.ok (parents, deps))
  | mk :: rest, parents, deps =>
    if mk ∈ deps then
      deps_loop recur store rest parents deps
    else if mk ∈ parents then
      some (.error (.Cycle mk mk))
    else
      match store mk with
      | none => some (.error (.LoadError mk))
      | some child =>
        match recur child mk parents deps with
        | none => none
        | some (.error e) => some (.error e)
        | some (.ok (parents1, deps1)) =>
          deps_loop recur store rest parents1.dropLast (deps1 ++ [mk])

/-- `Module::deps_no_cycle` (`module.rs` lines 200-227), with a fuel argument
bounding the recursion depth: push the key on `parents`, then run the loop
over the module's imports.  Returns the final `(parents, deps)` state. -/
def deps_no_cycle (store : Store) :
    Nat → Module → ModuleKey → List ModuleKey → List ModuleKey →
    Option (Except DepsError DepsState)
  | 0, _, _, _, _ => none
  | fuel + 1, m, key, parents, deps =>
    deps_loop (deps_no_cycle store fuel) store m.importKeys (parents ++ [key]) deps

/-- `Module::deps` (`module.rs` lines 195-198): run `deps_no_cycle` with fresh
`parents` and `deps` vectors and return the `deps` list. -/
def Module.deps (m : Module) (store : Store) (fuel : Nat) (key : ModuleKey) :
    Option (Except DepsError (List ModuleKey)) :=
  match deps_no_cycle store fuel m key [] [] with
  | none => none
  | some (.error e) => some (.error e)
  | some (.ok (_, deps)) => some (.ok deps)

/-- Fetch every key of a list from the store; `none` models the panic of
`store.get(kd).unwrap()` when a key is missing. -/
def lookupAll (store : Store) : List ModuleKey → Option (List Module)
  | [] => some []
  | k :: ks =>
    match store k, lookupAll store ks with
    | some m, some ms => some (m :: ms)
    | _, _ => none

/-- `Module::gather` (`module.rs` lines 231-249): compute the dependency list,
then fold the dependencies' declarations (in `deps` order) followed by the
root's own declarations into a single import-free module. -/
def Module.gather (m : Module) (store : Store) (fuel : Nat) (key : ModuleKey) :
    Option (Except DepsError (Module × List ModuleKey)) :=
  match m.deps store fuel key with
  | none => none
  | some (.error e) => some (.error e)
  | some (.ok deps) =>
    match lookupAll store deps with
    | none => none
    | some mods =>
      some (.ok ({ imports := [], glsl := (mods.map Module.glsl).flatten ++ m.glsl }, deps))

/-! ## Conversion errors and the result type of the lowering -/

/-- `cheddar::syntax::GLSLConversionError`.  The variants and their payloads
are those the spec's error taxonomy lists and `module.rs` constructs.
`UnsupportedInterfaceField` is modelled from the spec: composite (struct-typed)
interface fields are rejected by `fields_to_single_decls`, but the spec's
taxonomy does not name the variant used, so the model introduces one. -/
inductive GLSLConversionError where
  | NoVertexShader
  | NoFragmentShader
  | OutputHasMainQualifier
  | WrongOutputFirstField (f : StructFieldSpecifier)
  | ReturnTypeMustBeAStruct (ty : TypeSpecifier)
  | UnknownInputType (name : String)
  | WrongNumberOfArgs (expected got : Nat)
  | WrongGeometryInput
  | WrongGeometryInputDim (dim : Nat)
  | WrongGeometryOutputLayout (q : Option TypeQualifier)
  | UnsupportedInterfaceField (f : StructFieldSpecifier)

/-- Result of a lowering step: success, a conversion error, or `crash`, which
models a Rust panic (out-of-bounds indexing or `Option::unwrap` on `None`). -/
inductive Res (α : Type) where
  | ok (a : α)
  | err (e : GLSLConversionError)
  | crash

def Res.bind {α β : Type} : Res α → (α → Res β) → Res β
  | .ok a, f => f a
  | .err e, _ => .err e
  | .crash, _ => .crash

instance : Monad Res where
  pure := Res.ok
  bind := Res.bind

def Res.isOk {α : Type} : Res α → Bool
  | .ok _ => true
  | _ => false

/-- Lift a fallible (`Result`-valued) computation into `Res`. -/
def liftE {α : Type} : Except GLSLConversionError α → Res α
  | .ok a => .ok a
  | .error e => .err e

/-- Lift an `Option`: `none` models a panicking `unwrap` or index. -/
def liftO {α : Type} : Option α → Res α
  | some a => .ok a
  | none => .crash

/-- Monadic map over a list in `Res` (explicit recursion, mirrors iterating a
Rust loop in which each step may fail or panic). -/
def resMapList {α β : Type} (f : α → Res β) : List α → Res (List β)
  | [] => .ok []
  | a :: as => f a >>= fun b => resMapList f as >>= fun bs => .ok (b :: bs)

/-! ## Helpers of the missing `cheddar::syntax` module (modelled from the spec) -/

/-- Whether a non-array type specifier is an inline struct. -/
def TypeSpecifierNonArray.isStruct : TypeSpecifierNonArray → Bool
  | .Struct _ => true
  | _ => false

/-- Modelled from the spec: `drop_first_field` drops the reserved first field
of the vertex return struct for the next stage ("since this type has its
first field reserved, we must drop it for next stage"). -/
def drop_first_field (s : StructSpecifier) : StructSpecifier :=
  .mk s.name (s.fields.drop 1)

/-- Modelled from the spec: interface fields "are mapped to `out` declarations
named `<pre><field>`"; "the output-field rewrite carries the original field's
array specifier untouched into the inter-stage declaration; composite fields
are rejected".  Each identifier of each field becomes one `out` declaration
whose name gets the given stage prefix; a struct-typed field is an error. -/
def fields_to_single_decls (fields : List StructFieldSpecifier) (pre : String) :
    Except GLSLConversionError (List SingleDeclaration) :=
  match fields with
  | [] => .ok []
  | f :: rest =>
    if f.ty.ty.isStruct then
      .error (.UnsupportedInterfaceField f)
    else
      match fields_to_single_decls rest pre with
      | .error e => .error e
      | .ok ds =>
        .ok ((f.identifiers.map (fun id =>
          { ty := { qualifier := some ⟨[.Storage .Out]⟩, ty := f.ty },
            name := some (pre ++ id.1),
            array_specifier := id.2,
            initializer := none })) ++ ds)

/-- Modelled from the spec: inter-stage inputs "are derived from prev-stage
outputs by swapping `Out → In`"; for the geometry stage the declarations are
additionally put in (unsized) array form, keeping their names. -/
def inputs_from_outputs (outs : List SingleDeclaration) (array_form : Bool) :
    List SingleDeclaration :=
  outs.map (fun d =>
    { d with
        ty := { d.ty with
          qualifier := d.ty.qualifier.map (fun q =>
            ⟨q.qualifiers.map (fun spec =>
              match spec with
              | .Storage .Out => .Storage .In
              | other => other)⟩) },
        array_specifier := if array_form then some .Unsized else d.array_specifier })

/-- Modelled from the spec: whether a function argument is a named parameter. -/
def is_fn_arg_named : FunctionParameterDeclaration → Bool
  | .Named _ _ => true
  | .Unnamed _ _ => false

/-- Modelled from the spec: `remove_unused_args_fn` elides unnamed parameters
"entirely from its declared parameter list". -/
def remove_unused_args_fn (f : FunctionDefinition) : FunctionDefinition :=
  let ps := f.prototype.parameters.filter is_fn_arg_named
  { f with prototype := { f.prototype with parameters := ps } }

/-- Modelled from the spec: look a type specifier's type name up in the struct
table; the lookup must yield a struct, else `ReturnTypeMustBeAStruct`.  Shared
by `get_fn_ret_ty` and the return-type validation. -/
def struct_from_ty_spec (ts : TypeSpecifier) (structs : List StructSpecifier) :
    Except GLSLConversionError StructSpecifier :=
  match ts.ty with
  | .TypeName n =>
    match structs.find? (fun s => s.name == some n) with
    | some s => .ok s
    | none => .error (.ReturnTypeMustBeAStruct ts)
  | _ => .error (.ReturnTypeMustBeAStruct ts)

/-- Modelled from the spec: `get_fn_ret_ty` resolves a function's return type
name in the struct table ("look up the return type by name in the struct
table. The lookup must succeed; failure → `ReturnTypeMustBeAStruct`"). -/
def get_fn_ret_ty (f : FunctionDefinition) (structs : List StructSpecifier) :
    Except GLSLConversionError StructSpecifier :=
  struct_from_ty_spec f.prototype.ty.ty structs

/-- Modelled from the spec: view a function argument as a fully specified type
(qualifier plus type specifier); used by the geometry lowerer's parameter
inspection. -/
def fn_arg_as_fully_spec_ty : FunctionParameterDeclaration → FullySpecifiedType
  | .Named q d => { qualifier := q, ty := d.ty }
  | .Unnamed q ts => { qualifier := q, ty := ts }

/-- Modelled from the spec: the element type-name of the geometry input
parameter ("a typed array parameter whose element type-name must equal the
vertex stage's return struct name (else `UnknownInputType`)"). -/
def get_ty_name_from_fully_spec_ty (t : FullySpecifiedType) :
    Except GLSLConversionError String :=
  match t.ty.ty with
  | .TypeName n => .ok n
  | _ => .error (.UnknownInputType "<not a type name>")

/-- Modelled from the spec: the fragment contract is "exactly one named
parameter whose type-name equals prev-stage return struct name"; arity errors
carry `WrongNumberOfArgs`. -/
def get_fn1_input_ty_name (f : FunctionDefinition) :
    Except GLSLConversionError String :=
  match f.prototype.parameters with
  | [.Named _ d] =>
    match d.ty.ty with
    | .TypeName n => .ok n
    | _ => .error (.UnknownInputType "<not a type name>")
  | ps => .error (.WrongNumberOfArgs 1 ps.length)

/-- Concatenate a list of strings (explicit recursion; the model's
`String.join`). -/
def str_concat : List String → String
  | [] => ""
  | s :: rest => s ++ str_concat rest

/-! ## The base-language pretty-printer (`glsl::writer`, modelled from the spec)

The spec keeps the printer out of scope ("the base-language pretty-printer
(assumed available; emits a declaration or statement as text)") but pins its
shape through the literal scenarios (`layout(location = 0) in vec3 p;`,
`out vec4 chdr_f_c;`, `layout(triangles) in;`).  The model below prints the
AST subset the core manipulates in exactly that style. -/

def show_storage_qualifier : StorageQualifier → String
  | .Const => "const"
  | .In => "in"
  | .Out => "out"
  | .Uniform => "uniform"

def show_assignment_op : AssignmentOp → String
  | .Equal => "="

mutual

def show_expr : Expr → String
  | .Variable n => n
  | .IntConst i => toString i
  | .Assignment l op r => show_expr l ++ " " ++ show_assignment_op op ++ " " ++ show_expr r
  | .Dot e f => show_expr e ++ "." ++ f
  | .Bracket e a => show_expr e ++ show_array_spec a
  | .FunCall f args => show_fun_identifier f ++ "(" ++ show_expr_list args ++ ")"

def show_expr_list : List Expr → String
  | [] => ""
  | [e] => show_expr e
  | e :: rest => show_expr e ++ ", " ++ show_expr_list rest

def show_fun_identifier : FunIdentifier → String
  | .Identifier n => n
  | .Expr e => show_expr e

def show_array_spec : ArraySpecifier → String
  | .Unsized => "[]"
  | .ExplicitlySized e => "[" ++ show_expr e ++ "]"

end

def show_opt_array_spec : Option ArraySpecifier → String
  | none => ""
  | some a => show_array_spec a

def show_layout_qualifier_spec : LayoutQualifierSpec → String
  | .Identifier n none => n
  | .Identifier n (some e) => n ++ " = " ++ show_expr e
  | .Shared => "shared"

def show_layout_qualifier (l : LayoutQualifier) : String :=
  "layout(" ++ String.intercalate ", " (l.ids.map show_layout_qualifier_spec) ++ ")"

def show_type_qualifier_spec : TypeQualifierSpec → String
  | .Storage s => show_storage_qualifier s
  | .Layout l => show_layout_qualifier l

def show_type_qualifier (q : TypeQualifier) : String :=
  String.intercalate " " (q.qualifiers.map show_type_qualifier_spec)

mutual

def show_type_specifier_non_array : TypeSpecifierNonArray → String
  | .Void => "void"
  | .Float => "float"
  | .Vec2 => "vec2"
  | .Vec3 => "vec3"
  | .Vec4 => "vec4"
  | .TypeName n => n
  | .Struct s => show_struct_body s

def show_type_specifier : TypeSpecifier → String
  | .mk t a => show_type_specifier_non_array t ++ show_opt_array_spec a

def show_struct_field : StructFieldSpecifier → String
  | .mk q t ids =>
    (match q with
     | some qq => show_type_qualifier qq ++ " "
     | none => "") ++
    show_type_specifier t ++ " " ++
    String.intercalate ", " (ids.map (fun id => id.1 ++ show_opt_array_spec id.2)) ++
    ";\n"

def show_struct_field_list : List StructFieldSpecifier → String
  | [] => ""
  | f :: rest => show_struct_field f ++ show_struct_field_list rest

def show_struct_body : StructSpecifier → String
  | .mk n fields =>
    "struct" ++
    (match n with
     | some nm => " " ++ nm
     | none => "") ++
    " \x7b\n" ++ show_struct_field_list fields ++ "\x7d"

end

/-- A struct definition as an external declaration: body plus `";\n"`. -/
def show_struct (s : StructSpecifier) : String :=
  show_struct_body s ++ ";\n"

def show_fully_spec_ty (t : FullySpecifiedType) : String :=
  (match t.qualifier with
   | some q => show_type_qualifier q ++ " "
   | none => "") ++ show_type_specifier t.ty

def show_initializer : Initializer → String
  | .Simple e => show_expr e

def show_single_declaration (d : SingleDeclaration) : String :=
  show_fully_spec_ty d.ty ++
  (match d.name with
   | some n => " " ++ n
   | none => "") ++
  show_opt_array_spec d.array_specifier ++
  (match d.initializer with
   | some i => " = " ++ show_initializer i
   | none => "")

def show_single_declaration_no_ty (d : SingleDeclarationNoType) : String :=
  d.name ++ show_opt_array_spec d.array_specifier ++
  (match d.initializer with
   | some i => " = " ++ show_initializer i
   | none => "")

def show_block (b : Block) : String :=
  show_type_qualifier b.qualifier ++ " " ++ b.name ++ " \x7b\n" ++
  show_struct_field_list b.fields ++ "\x7d" ++
  (match b.identifier with
   | some id => " " ++ id.1 ++ show_opt_array_spec id.2
   | none => "") ++ ";\n"

def show_declaration : Declaration → String
  | .InitDeclaratorList l =>
    show_single_declaration l.head ++
    str_concat (l.tail.map (fun t => ", " ++ show_single_declaration_no_ty t)) ++ ";\n"
  | .Block b => show_block b
  | .Global q ids =>
    show_type_qualifier q ++ str_concat (ids.map (fun i => " " ++ i)) ++ ";\n"

mutual

def show_statement : Statement → String
  | .Simple s => show_simple_statement s
  | .Compound c => show_compound_statement c

def show_simple_statement : SimpleStatement → String
  | .Declaration d => show_declaration d
  | .Expression none => ";\n"
  | .Expression (some e) => show_expr e ++ ";\n"

def show_compound_statement : CompoundStatement → String
  | .mk l => "\x7b\n" ++ show_statement_list l ++ "\x7d\n"

def show_statement_list : List Statement → String
  | [] => ""
  | s :: rest => show_statement s ++ show_statement_list rest

end

def show_function_parameter : FunctionParameterDeclaration → String
  | .Named q d =>
    (match q with
     | some qq => show_type_qualifier qq ++ " "
     | none => "") ++
    show_type_specifier d.ty ++ " " ++ d.name ++ show_opt_array_spec d.array_spec
  | .Unnamed q t =>
    (match q with
     | some qq => show_type_qualifier qq ++ " "
     | none => "") ++ show_type_specifier t

def show_function_definition (f : FunctionDefinition) : String :=
  show_fully_spec_ty f.prototype.ty ++ " " ++ f.prototype.name ++ "(" ++
  String.intercalate ", " (f.prototype.parameters.map show_function_parameter) ++
  ") \x7b\n" ++ show_statement_list f.statement.statement_list ++ "\x7d\n"

def show_external_declaration : ExternalDeclaration → String
  | .Declaration d => show_declaration d
  | .FunctionDefinition f => show_function_definition f

/-- Modelled from the spec: `sink_single_as_ext_decls` emits each synthesised
input/output declaration as an external declaration (one per line, terminated
with `";\n"`, as in `layout(location = 0) in vec3 p;`). -/
def sink_single_as_ext_decls (ds : List SingleDeclaration) : String :=
  str_concat (ds.map (fun d => show_single_declaration d ++ ";\n"))

/-! ## The pipeline lowering (`module.rs`) -/

/-- Look a type name up in the struct table (`structs.iter().find(|s|
s.name.as_ref() == Some(ty_name))`). -/
def lookup_struct (ty_name : String) (structs : List StructSpecifier) :
    Option StructSpecifier :=
  structs.find? (fun s => s.name == some ty_name)

/-- Whether a non-array type specifier is exactly `vec4`. -/
def is_vec4 : TypeSpecifierNonArray → Bool
  | .Vec4 => true
  | _ => false

/-- Whether an identifier list is exactly `[("chdr_Position", None)]`. -/
def is_chdr_position_ids : List (String × Option ArraySpecifier) → Bool
  | [(n, none)] => n == "chdr_Position"
  | _ => false

/-- `vertex_shader_outputs` (`module.rs` lines 569-602): refuse a top-level
qualifier; resolve the return type name in the struct table; check the first
field (`s.fields[0]`, which panics on an empty field list — modelled by
`crash`); map the remaining fields to `chdr_v_` interface declarations. -/
def vertex_shader_outputs (fsty : FullySpecifiedType)
    (structs : List StructSpecifier) : Res (List SingleDeclaration) :=
  if fsty.qualifier.isSome then
    .err .OutputHasMainQualifier
  else
    match fsty.ty.ty with
    | .TypeName ty_name =>
      match lookup_struct ty_name structs with
      | some s =>
        match s.fields.head? with
        | none => .crash
        | some first_field =>
          if first_field.qualifier.isSome || !is_vec4 first_field.ty.ty ||
              !is_chdr_position_ids first_field.identifiers then
            .err (.WrongOutputFirstField first_field)
          else
            liftE (fields_to_single_decls (s.fields.drop 1) "chdr_v_")
      | none => .err (.ReturnTypeMustBeAStruct fsty.ty)
    | _ => .err (.ReturnTypeMustBeAStruct fsty.ty)

/-- `vertex_shader_input_qualifier` (`module.rs` lines 514-532): prepend
`layout(location = i) in` to the parameter's own qualifier. -/
def vertex_shader_input_qualifier (i : Nat) (ty_qual : Option TypeQualifier) :
    TypeQualifier :=
  let layout_qualifier : LayoutQualifier :=
    ⟨[.Identifier "location" (some (.IntConst (Int.ofNat i)))]⟩
  let base : List TypeQualifierSpec := [.Layout layout_qualifier, .Storage .In]
  match ty_qual with
  | some qual => ⟨base ++ qual.qualifiers⟩
  | none => ⟨base⟩

/-- `vertex_shader_inputs` (`module.rs` lines 535-567): one synthesised input
declaration per named parameter, positioned by the parameter index; unnamed
parameters are skipped (reserved slots). -/
def vertex_shader_inputs (args : List FunctionParameterDeclaration) :
    Except GLSLConversionError (List SingleDeclaration) :=
  .ok (args.enum.filterMap (fun p =>
    match p.2 with
    | .Named ty_qual decl =>
      some { ty := { qualifier := some (vertex_shader_input_qualifier p.1 ty_qual),
                     ty := decl.ty },
             name := some decl.name,
             array_specifier := decl.array_spec,
             initializer := none }
    | .Unnamed _ _ => none))

/-- `sink_vertex_shader_output` (`module.rs` lines 465-479): write the return
struct's name (panic when it has none), and build the `gl_Position` and
`chdr_v_*` assignments from the fields after the first. -/
def sink_vertex_shader_output (ty : StructSpecifier) : Res (String × String) :=
  match ty.name with
  | none => .crash
  | some name =>
    let assigns := "  gl_Position = v.chdr_Position;\n" ++
      str_concat ((ty.fields.drop 1).map (fun field =>
        str_concat (field.identifiers.map (fun id =>
          "  chdr_v_" ++ id.1 ++ " = v." ++ id.1 ++ ";\n"))))
    .ok (name, assigns)

/-- `sink_vertex_shader_input_arg` (`module.rs` lines 501-510): a named
parameter is passed by its own name, an unnamed one as `chdr_unused<i>`. -/
def sink_vertex_shader_input_arg (i : Nat) (arg : FunctionParameterDeclaration) :
    String :=
  match arg with
  | .Named _ d => d.name
  | .Unnamed _ _ => "chdr_unused" ++ toString i

/-- `sink_vertex_shader_input_args` (`module.rs` lines 482-498): sink the
first argument unconditionally, then each later argument only when it is
named, comma-separated. -/
def sink_vertex_shader_input_args (map_vertex : FunctionDefinition) : String :=
  match map_vertex.prototype.parameters with
  | [] => ""
  | first_arg :: rest =>
    sink_vertex_shader_input_arg 0 first_arg ++
    str_concat (rest.enum.map (fun p =>
      if is_fn_arg_named p.2 then ", " ++ sink_vertex_shader_input_arg (p.1 + 1) p.2
      else ""))

/-- `sink_vertex_shader` (`module.rs` lines 427-462): inputs, outputs, return
struct, reduced `map_vertex`, and the synthesised `void main()`. -/
def sink_vertex_shader (map_vertex : FunctionDefinition)
    (structs : List StructSpecifier) :
    Res (String × StructSpecifier × List SingleDeclaration) := do
  let inputs ← liftE (vertex_shader_inputs map_vertex.prototype.parameters)
  let outputs ← vertex_shader_outputs map_vertex.prototype.ty structs
  let ret_ty ← liftE (get_fn_ret_ty map_vertex structs)
  let s1 := sink_single_as_ext_decls (inputs ++ outputs)
  let s2 := show_struct ret_ty
  let map_vertex_reduced := remove_unused_args_fn map_vertex
  let s3 := show_function_definition map_vertex_reduced
  let (ret_name, assigns) ← sink_vertex_shader_output ret_ty
  let s4 := "void main() \x7b\n  " ++ ret_name ++ " v = map_vertex(" ++
            sink_vertex_shader_input_args map_vertex_reduced ++ ");\n" ++
            assigns ++ "\x7d\n\n"
  pure (s1 ++ s2 ++ s3 ++ s4, ret_ty, outputs)

/-- `usize` cast of an `i32` (`size as usize` on a 64-bit host): negative
values wrap modulo `2^64`. -/
def usize_of_i32 (n : Int) : Nat :=
  (n % (18446744073709551616 : Int)).toNat

/-- `guess_gs_input_prim` (`module.rs` lines 734-748): the literal dimensions
1, 2, 3, 4, 6 map to the input-primitive layouts; any other literal is
`WrongGeometryInputDim`; anything else is `WrongGeometryInput`. -/
def guess_gs_input_prim (array_specifier : Option ArraySpecifier) :
    Except GLSLConversionError (Nat × LayoutQualifier) :=
  match array_specifier with
  | some (.ExplicitlySized (.IntConst size)) =>
    if size = 1 then .ok (1, ⟨[.Identifier "points" none]⟩)
    else if size = 2 then .ok (2, ⟨[.Identifier "lines" none]⟩)
    else if size = 3 then .ok (3, ⟨[.Identifier "triangles" none]⟩)
    else if size = 4 then .ok (4, ⟨[.Identifier "lines_adjacency" none]⟩)
    else if size = 6 then .ok (6, ⟨[.Identifier "triangles_adjacency" none]⟩)
    else .error (.WrongGeometryInputDim (usize_of_i32 size))
  | _ => .error .WrongGeometryInput

/-- `gs_layout_storage_external_decl` (`module.rs` lines 750-764). -/
def gs_layout_storage_external_decl (layout : LayoutQualifier)
    (storage : StorageQualifier) : ExternalDeclaration :=
  .Declaration (.Global ⟨[.Layout layout, .Storage storage]⟩ [])

/-- `check_gs_output_prim` (`module.rs` lines 787-792). -/
def check_gs_output_prim (s : String) : Bool :=
  s == "points" || s == "line_strip" || s == "triangle_strip"

/-- `get_gs_output_layout_metadata` (`module.rs` lines 766-785): the output
descriptor's qualifier must be exactly `layout(<prim>, max_vertices = <N>)
out` with `<prim>` a geometry output primitive. -/
def get_gs_output_layout_metadata (qual : Option TypeQualifier) :
    Except GLSLConversionError LayoutQualifier :=
  match qual with
  | none => .error (.WrongGeometryOutputLayout none)
  | some q =>
    match q.qualifiers with
    | [.Layout layout_qual, .Storage .Out] =>
      match layout_qual.ids with
      | [.Identifier output_prim_str none,
         .Identifier max_vertices_str (some (.IntConst _))] =>
        if max_vertices_str == "max_vertices" then
          if check_gs_output_prim output_prim_str then .ok layout_qual
          else .error (.WrongGeometryOutputLayout (some q))
        else .error (.WrongGeometryOutputLayout (some q))
      | _ => .error (.WrongGeometryOutputLayout (some q))
    | _ => .error (.WrongGeometryOutputLayout (some q))

/-- `yield_vertex` (`module.rs` lines 831-890): rewrite `yield_vertex(e)` into
a block binding `e` to `chdr_v`, assigning every `chdr_g_<field>`, and calling
`EmitVertex()`.  `out_ty.name.unwrap()` is a potential panic. -/
def yield_vertex (args : List Expr) (out_ty : StructSpecifier) : Res Statement :=
  match args with
  | [arg] => do
    let out_name ← liftO out_ty.name
    let binding : Statement := .Simple (.Declaration (.InitDeclaratorList
      { head := { ty := { qualifier := none, ty := .mk (.TypeName out_name) none },
                  name := some "chdr_v",
                  array_specifier := none,
                  initializer := some (.Simple arg) },
        tail := [] }))
    let bvar : Expr := .Variable "chdr_v"
    let assigns := out_ty.fields.flatMap (fun field =>
      field.identifiers.map (fun id =>
        Statement.Simple (.Expression (some (.Assignment
          (.Variable ("chdr_g_" ++ id.1)) .Equal (.Dot bvar id.1))))))
    let emit : Statement :=
      .Simple (.Expression (some (.FunCall (.Identifier "EmitVertex") [])))
    pure (.Compound (.mk ([binding] ++ assigns ++ [emit])))
  | _ => .err (.WrongNumberOfArgs 1 args.length)

/-- `yield_primitive` (`module.rs` lines 892-901). -/
def yield_primitive : Statement :=
  .Simple (.Expression (some (.FunCall (.Identifier "EndPrimitive") [])))

/-- The per-statement rewrite of `fix_concat_map_prim` (`module.rs` lines
803-817, the closure mapped over the statement list): rewrite a top-level
expression statement calling `yield_vertex` / `yield_primitive`, leave every
other statement unchanged. -/
def fix_statement (out_ty : StructSpecifier) (st : Statement) : Res Statement :=
  match st with
  | .Simple (.Expression (some (.FunCall (.Identifier fni) args))) =>
    if fni == "yield_vertex" then yield_vertex args out_ty
    else if fni == "yield_primitive" then pure yield_primitive
    else pure st
  | _ => pure st

/-- `fix_concat_map_prim` (`module.rs` lines 802-829): map `fix_statement`
over the top-level statement list and truncate the parameter list to its
first element. -/
def fix_concat_map_prim (f : FunctionDefinition) (out_ty : StructSpecifier) :
    Res FunctionDefinition := do
  let st ← resMapList (fix_statement out_ty) f.statement.statement_list
  pure { prototype := { f.prototype with parameters := f.prototype.parameters.take 1 },
         statement := .mk st }

/-- `gs_create_vertex_array` (`module.rs` lines 903-957): reconstruct the
vertex array `v` from the per-field `chdr_v_*` input arrays. -/
def gs_create_vertex_array (v_ty : StructSpecifier) (dim : Nat)
    (binding_name : String) : Res Statement := do
  let v_ty_name ← liftO v_ty.name
  let fun_id : FunIdentifier := .Expr (.Bracket (.Variable v_ty_name) .Unsized)
  let fun_args := (List.range dim).map (fun i =>
    let v_ctor_args := v_ty.fields.flatMap (fun field =>
      field.identifiers.map (fun id =>
        Expr.Bracket (.Variable ("chdr_v_" ++ id.1))
          (.ExplicitlySized (.IntConst (Int.ofNat i)))))
    Expr.FunCall (.Identifier v_ty_name) v_ctor_args)
  let rhs : Expr := .FunCall fun_id fun_args
  let res_ty : TypeSpecifier := .mk (.TypeName v_ty_name)
    (some (.ExplicitlySized (.IntConst (Int.ofNat dim))))
  pure (.Simple (.Declaration (.InitDeclaratorList
    { head := { ty := { qualifier := none, ty := res_ty },
                name := some binding_name,
                array_specifier := none,
                initializer := some (.Simple rhs) },
      tail := [] })))

/-- `sink_geometry_shader` (`module.rs` lines 605-669). -/
def sink_geometry_shader (concat_map_prim : FunctionDefinition)
    (structs : List StructSpecifier) (prev_ret_ty : StructSpecifier)
    (prev_inputs : List SingleDeclaration) :
    Res (String × StructSpecifier × List SingleDeclaration) := do
  let fn_args := concat_map_prim.prototype.parameters
  let (input_ty_name, input_dim, input_layout, output_ty, output_layout) ←
    match fn_args with
    | [arg0, arg1] => do
      let input := fn_arg_as_fully_spec_ty arg0
      let output := fn_arg_as_fully_spec_ty arg1
      let output_ty ← liftE (struct_from_ty_spec output.ty structs)
      let input_ty_name ← liftE (get_ty_name_from_fully_spec_ty input)
      let (input_dim, input_layout) ← liftE (guess_gs_input_prim input.ty.array_specifier)
      let output_layout ← liftE (get_gs_output_layout_metadata output.qualifier)
      pure (input_ty_name, input_dim, input_layout, output_ty, output_layout)
    | _ => Res.err (.WrongNumberOfArgs 2 fn_args.length)
  if !(some input_ty_name == prev_ret_ty.name) then
    Res.err (.UnknownInputType input_ty_name)
  else do
    let gs_metadata_input := gs_layout_storage_external_decl input_layout .In
    let gs_metadata_output := gs_layout_storage_external_decl output_layout .Out
    let s1 := show_external_declaration gs_metadata_input ++
              show_external_declaration gs_metadata_output
    let inputs := inputs_from_outputs prev_inputs true
    let outputs ← liftE (fields_to_single_decls output_ty.fields "chdr_g_")
    let s2 := sink_single_as_ext_decls (inputs ++ outputs)
    let s3 := show_struct prev_ret_ty ++ show_struct output_ty
    let concat_map_prim_fixed ← fix_concat_map_prim concat_map_prim output_ty
    let s4 := show_function_definition concat_map_prim_fixed
    let arr_st ← gs_create_vertex_array prev_ret_ty input_dim "v"
    let s5 := "void main() \x7b\n  " ++ show_statement arr_st ++
              "  concat_map_prim(v);\n" ++ "\x7d\n\n"
    pure (s1 ++ s2 ++ s3 ++ s4 ++ s5, output_ty, outputs)

/-- `sink_fragment_shader` (`module.rs` lines 672-721).  Note `inputs[0]`
(line 704) and the `unwrap`s: each is a potential panic, modelled by `liftO`. -/
def sink_fragment_shader (map_frag_data : FunctionDefinition)
    (structs : List StructSpecifier) (prev_ret_ty : StructSpecifier)
    (prev_inputs : List SingleDeclaration) :
    Res (String × StructSpecifier × List SingleDeclaration) := do
  let input_ty_name ← liftE (get_fn1_input_ty_name map_frag_data)
  if !(some input_ty_name == prev_ret_ty.name) then
    Res.err (.UnknownInputType input_ty_name)
  else do
    let inputs := inputs_from_outputs prev_inputs false
    let ret_ty ← liftE (get_fn_ret_ty map_frag_data structs)
    let outputs ← liftE (fields_to_single_decls ret_ty.fields "chdr_f_")
    let s1 := sink_single_as_ext_decls (inputs ++ outputs)
    let s2 := show_struct prev_ret_ty ++ show_struct ret_ty
    let s3 := show_function_definition (remove_unused_args_fn map_frag_data)
    let prev_name ← liftO prev_ret_ty.name
    let first_input ← liftO inputs.head?
    let first_input_name ← liftO first_input.name
    let rest_args ← resMapList (fun input => do
      let n ← liftO input.name
      pure (", " ++ n)) (inputs.drop 1)
    let ret_name ← liftO ret_ty.name
    let out_assigns ← resMapList (fun p => do
      let out_name ← liftO p.1.name
      let fid ← liftO p.2.identifiers.head?
      pure ("  " ++ out_name ++ " = o." ++ fid.1 ++ ";\n")) (outputs.zip ret_ty.fields)
    let s4 := "void main() \x7b\n  " ++ prev_name ++ " i = " ++ prev_name ++ "(" ++
              first_input_name ++ str_concat rest_args ++ ");\n" ++
              "  " ++ ret_name ++ " o = map_frag_data(i);\n" ++
              str_concat out_assigns ++ "\x7d\n\n"
    pure (s1 ++ s2 ++ s3 ++ s4, ret_ty, outputs)

/-- `filter_out_special_functions` (`module.rs` lines 723-732). -/
def filter_out_special_functions (functions : List FunctionDefinition) :
    List FunctionDefinition :=
  functions.filter (fun f =>
    f.prototype.name != "map_vertex" && f.prototype.name != "concat_map_prim" &&
    f.prototype.name != "map_frag_data")

/-- Whether a type-qualifier entry is exactly `Storage(Uniform)` (the
`contains` test of `Module::uniforms`). -/
def is_uniform_spec : TypeQualifierSpec → Bool
  | .Storage .Uniform => true
  | _ => false

/-- `Module::uniforms` (`module.rs` lines 343-367): every init-declarator list
whose head type carries the `uniform` storage qualifier, with each tail
declarator expanded into its own single declaration. -/
def Module.uniforms (m : Module) : List SingleDeclaration :=
  m.glsl.flatMap (fun ed =>
    match ed with
    | .Declaration (.InitDeclaratorList i) =>
      match i.head.ty.qualifier with
      | some q =>
        if q.qualifiers.any is_uniform_spec then
          i.head :: i.tail.map (fun next =>
            { ty := i.head.ty,
              name := some next.name,
              array_specifier := next.array_specifier,
              initializer := none })
        else []
      | none => []
    | _ => [])

/-- `Module::blocks` (`module.rs` lines 370-378). -/
def Module.blocks (m : Module) : List Block :=
  m.glsl.filterMap (fun ed =>
    match ed with
    | .Declaration (.Block b) => some b
    | _ => none)

/-- `Module::functions` (`module.rs` lines 381-386). -/
def Module.functions (m : Module) : List FunctionDefinition :=
  m.glsl.filterMap (fun ed =>
    match ed with
    | .FunctionDefinition fd => some fd
    | _ => none)

/-- `Module::structs` (`module.rs` lines 389-412): every init-declarator list
whose head type specifier is an inline struct. -/
def Module.structs (m : Module) : List StructSpecifier :=
  m.glsl.filterMap (fun ed =>
    match ed with
    | .Declaration (.InitDeclaratorList i) =>
      match i.head.ty.ty.ty with
      | .Struct s => some s
      | _ => none
    | _ => none)

/-- `ModuleFold` (`module.rs` lines 420-424): the three stage sources. -/
structure ModuleFold where
  vs : String
  gs : Option String
  fs : String

/-- `Module::to_glsl_setup` (`module.rs` lines 252-340): classify the folded
module, emit the common prelude, lower the three stages, elide stage-local
structs from the shared struct buffer, and assemble the stage sources. -/
def Module.to_glsl_setup (m : Module) : Res ModuleFold := do
  let uniforms := m.uniforms
  let blocks := m.blocks
  let structs := m.structs
  let functions := m.functions
  let common0 :=
    str_concat (uniforms.map (fun u => show_single_declaration u ++ ";\n")) ++
    str_concat (blocks.map show_block) ++
    str_concat ((filter_out_special_functions functions).map show_function_definition)
  let map_vertex ← liftE
    (match functions.find? (fun fd => fd.prototype.name == "map_vertex") with
     | some f => .ok f
     | none => .error .NoVertexShader)
  let concat_map_prim := functions.find? (fun fd => fd.prototype.name == "concat_map_prim")
  let map_frag_data ← liftE
    (match functions.find? (fun fd => fd.prototype.name == "map_frag_data") with
     | some f => .ok f
     | none => .error .NoFragmentShader)
  let (vs, vertex_ret_ty, vertex_outputs) ← sink_vertex_shader map_vertex structs
  let vertex_ret_ty_fixed := drop_first_field vertex_ret_ty
  let (gs, fs_prev_ret_ty, fs_prev_outputs, filter_out_struct_def) ←
    match concat_map_prim with
    | some cmp => do
      let (g, ret_ty, outputs) ←
        sink_geometry_shader cmp structs vertex_ret_ty_fixed vertex_outputs
      pure (g, ret_ty, outputs, [vertex_ret_ty_fixed.name, ret_ty.name])
    | none => pure ("", vertex_ret_ty_fixed, vertex_outputs, [vertex_ret_ty_fixed.name])
  let (fs, fragment_ret_ty, _) ←
    sink_fragment_shader map_frag_data structs fs_prev_ret_ty fs_prev_outputs
  let filter_out := filter_out_struct_def ++ [fragment_ret_ty.name]
  let structs_str := str_concat
    ((structs.filter (fun s => !(filter_out.contains s.name))).map show_struct)
  let common := structs_str ++ common0
  if vs.isEmpty then Res.err .NoVertexShader
  else if fs.isEmpty then Res.err .NoFragmentShader
  else pure { vs := common ++ vs,
              gs := if gs.isEmpty then none else some gs,
              fs := common ++ fs }

/-! ## Auxiliary notions used by the statements of the properties -/

/-- Whether `needle` is a prefix of a character list. -/
def char_list_starts (needle hay : List Char) : Bool :=
  match needle, hay with
  | [], _ => true
  | _ :: _, [] => false
  | a :: as, b :: bs => a == b && char_list_starts as bs

/-- Whether `needle` occurs inside a character list. -/
def char_list_has (needle : List Char) : List Char → Bool
  | [] => char_list_starts needle []
  | b :: bs => char_list_starts needle (b :: bs) || char_list_has needle bs

/-- Whether the string `needle` occurs as a substring of `hay`. -/
def containsSub (hay needle : String) : Bool :=
  char_list_has needle.toList hay.toList

/-- Whether a statement is a top-level expression-statement call to
`yield_vertex` or `yield_primitive` (the shape `fix_concat_map_prim`
rewrites). -/
def is_yield_stmt : Statement → Bool
  | .Simple (.Expression (some (.FunCall (.Identifier fni) _))) =>
    fni == "yield_vertex" || fni == "yield_primitive"
  | _ => false

/-- The property the spec demands of the first field of the vertex return
struct: exactly an unqualified `vec4` named `chdr_Position` (no array). -/
def exactly_unqualified_vec4_position (ff : StructFieldSpecifier) : Prop :=
  ff.qualifier = none ∧ ff.ty.ty = .Vec4 ∧ ff.identifiers = [("chdr_Position", none)]

/-- Whether an array specifier is an explicit integer literal size. -/
def is_int_literal_spec : ArraySpecifier → Bool
  | .ExplicitlySized (.IntConst _) => true
  | _ => false

/-- The name of a named parameter (and `""` for an unnamed one). -/
def named_param_name : FunctionParameterDeclaration → String
  | .Named _ d => d.name
  | .Unnamed _ _ => ""

/-- Comma-join a list of call arguments. -/
def join_comma : List String → String
  | [] => ""
  | a :: rest => a ++ str_concat (rest.map (fun s => ", " ++ s))

/-- The call-site argument string claim C6 describes: one argument per
parameter slot of `map_vertex`, an unnamed slot at position `i` passed as
`chdr_unused<i>`, a named one by its own name. -/
def claimed_call_args (f : FunctionDefinition) : String :=
  join_comma (f.prototype.parameters.enum.map (fun p =>
    match p.2 with
    | .Named _ d => d.name
    | .Unnamed _ _ => "chdr_unused" ++ toString p.1))

/-- `deps` is topologically closed: every element's module loads, and its
imports all lie strictly before it in the list. -/
def TopoOk (store : Store) (deps : List ModuleKey) : Prop :=
  ∀ pre m, (pre ++ [m]) <+: deps →
    ∃ M, store m = some M ∧ ∀ n ∈ M.importKeys, n ∈ pre

/-- `n` appears strictly before `m` in the list `l`. -/
def appearsBefore (l : List ModuleKey) (n m : ModuleKey) : Prop :=
  ∃ l₁ l₂ l₃, l = l₁ ++ n :: l₂ ++ m :: l₃

/-- The import relation of the store: `a` imports `b` when `a`'s module loads
and lists `b` among its import keys. -/
inductive Imp (store : Store) : ModuleKey → ModuleKey → Prop where
  | mk : ∀ {a b : ModuleKey} {M : Module},
      store a = some M → b ∈ M.importKeys → Imp store a b

/-- What a successful `deps_loop` run guarantees, relative to its arguments:
the parents stack is restored, `deps` only grows, new entries are loadable and
avoid the parents stack, topological closure is preserved, all the
processed import keys end up in `deps`, and freshness/nodup is preserved. -/
def LoopOut (store : Store) (imps P D : List ModuleKey) (r : DepsState) : Prop :=
  r.1 = P ∧ D <+: r.2 ∧
  (∀ x ∈ r.2, x ∈ D ∨ ((store x).isSome ∧ x ∉ P)) ∧
  (TopoOk store D → TopoOk store r.2) ∧
  (∀ n ∈ imps, n ∈ r.2) ∧
  ((D.Nodup ∧ ∀ x ∈ P, x ∉ D) → (r.2.Nodup ∧ ∀ x ∈ P, x ∉ r.2))

/-- What an erroring resolver run guarantees, relative to the parents stack:
a `Cycle` error has equal components, its key is reachable from the stack and
lies on a genuine import cycle; a `LoadError` names an unloadable key
reachable from the stack. -/
def ErrOut (store : Store) (P : List ModuleKey) : DepsError → Prop
  | .Cycle a b => a = b ∧ (∃ p ∈ P, Relation.ReflTransGen (Imp store) p a) ∧
      Relation.TransGen (Imp store) a a
  | .LoadError k => store k = none ∧ ∃ p ∈ P, Relation.ReflTransGen (Imp store) p k

/-- Index of the first occurrence of a key in a list (list length when
absent); the rank function of the topological order. -/
def idx : List ModuleKey → ModuleKey → Nat
  | [], _ => 0
  | x :: xs, a => if x = a then 0 else idx xs a + 1

/-! ## Concrete example modules -/

/-- An unqualified `vec4` field with a single plain identifier. -/
def vec4Field (n : String) : StructFieldSpecifier :=
  .mk none (.mk .Vec4 none) [(n, none)]

/-- A struct declaration as an external declaration (`struct S { ... };`). -/
def structDecl (s : StructSpecifier) : ExternalDeclaration :=
  .Declaration (.InitDeclaratorList
    { head := { ty := { qualifier := none, ty := .mk (.Struct s) none },
                name := none, array_specifier := none, initializer := none },
      tail := [] })

/-- `struct Vertex { vec4 chdr_Position; }` — the minimum vertex struct. -/
def vertexStructMin : StructSpecifier :=
  .mk (some "Vertex") [vec4Field "chdr_Position"]

/-- `struct Vertex { vec4 chdr_Position; vec4 color; }`. -/
def vertexStruct2 : StructSpecifier :=
  .mk (some "Vertex") [vec4Field "chdr_Position", vec4Field "color"]

/-- `struct F { vec4 c; }` — the fragment return struct. -/
def fStruct : StructSpecifier := .mk (some "F") [vec4Field "c"]

/-- `Vertex map_vertex(vec3 p)`. -/
def mapVertexMin : FunctionDefinition :=
  { prototype := { ty := { qualifier := none, ty := .mk (.TypeName "Vertex") none },
                   name := "map_vertex",
                   parameters := [.Named none ⟨.mk .Vec3 none, "p", none⟩] },
    statement := .mk [] }

/-- `Vertex map_vertex(vec3 p, vec3)` — second parameter unnamed. -/
def mapVertexUnnamed : FunctionDefinition :=
  { prototype := { ty := { qualifier := none, ty := .mk (.TypeName "Vertex") none },
                   name := "map_vertex",
                   parameters := [.Named none ⟨.mk .Vec3 none, "p", none⟩,
                                  .Unnamed none (.mk .Vec3 none)] },
    statement := .mk [] }

/-- `F map_frag_data(Vertex v)`. -/
def mapFragData : FunctionDefinition :=
  { prototype := { ty := { qualifier := none, ty := .mk (.TypeName "F") none },
                   name := "map_frag_data",
                   parameters := [.Named none ⟨.mk (.TypeName "Vertex") none, "v", none⟩] },
    statement := .mk [] }

/-- The spec's minimum pipeline module: `struct Vertex { vec4 chdr_Position; };
Vertex map_vertex(vec3 p); struct F { vec4 c; }; F map_frag_data(Vertex v)`. -/
def minPipeline : Module :=
  { imports := [],
    glsl := [structDecl vertexStructMin, .FunctionDefinition mapVertexMin,
             structDecl fStruct, .FunctionDefinition mapFragData] }

/-- The minimum pipeline enlarged with one extra inter-stage field `color`
(so that the fragment stage's `inputs[0]` exists and lowering succeeds). -/
def pipeline2 : Module :=
  { imports := [],
    glsl := [structDecl vertexStruct2, .FunctionDefinition mapVertexMin,
             structDecl fStruct, .FunctionDefinition mapFragData] }

/-- The stage sources of `pipeline2` (defaulting to empty strings — the
lowering in fact succeeds, as the theorems show). -/
def pipeline2_fold : ModuleFold :=
  match pipeline2.to_glsl_setup with
  | .ok fold => fold
  | _ => { vs := "", gs := none, fs := "" }

/-- Module `a` of the diamond: imports `b` and `c`. -/
def diamondA : Module := { imports := [⟨⟨["b"]⟩, []⟩, ⟨⟨["c"]⟩, []⟩], glsl := [] }

/-- Module `b` of the diamond: imports `d`. -/
def diamondB : Module := { imports := [⟨⟨["d"]⟩, []⟩], glsl := [] }

/-- Module `c` of the diamond: imports `d`. -/
def diamondC : Module := { imports := [⟨⟨["d"]⟩, []⟩], glsl := [] }

/-- Module `d` of the diamond: a leaf holding one declaration. -/
def diamondD : Module := { imports := [], glsl := [structDecl fStruct] }

/-- The diamond store: `a → b, c`; `b, c → d`. -/
def diamondStore : Store := fun k =>
  if k = "a" then some diamondA
  else if k = "b" then some diamondB
  else if k = "c" then some diamondC
  else if k = "d" then some diamondD
  else none

/-- The self-importing module `a` (`a` imports `a`). -/
def selfModule : Module := { imports := [⟨⟨["a"]⟩, []⟩], glsl := [] }

/-- A store with the single self-importing module `a`. -/
def selfStore : Store := fun k =>
  if k = "a" then some selfModule else none

/-! ## Theorems

From here on the file only proves properties of the definitions above. -/

/-- Claim C1: the spec expects the minimum pipeline (a vertex return struct
whose only field is `chdr_Position`) to lower successfully; instead the code
panics: the vertex stage contributes no inter-stage outputs, so the fragment
lowerer's `inputs` vector is empty and `inputs[0]` (`module.rs` line 704) is
an out-of-bounds index.  The model evaluates the whole lowering of exactly
that module to the panic marker. -/
theorem min_pipeline_crashes : minPipeline.to_glsl_setup = Res.crash := rfl

/-- Any `Res.ok` lifted from an `Except.ok` (helper for bind reasoning). -/
theorem Res.bind_ok {α β : Type} (a : α) (f : α → Res β) :
    Res.bind (.ok a) f = f a := rfl

/-- `resMapList` maps a pointwise-identity function to the identity. -/
theorem resMapList_id {α : Type} (g : α → Res α) (l : List α)
    (h : ∀ a ∈ l, g a = .ok a) : resMapList g l = .ok l := by
  induction l with
  | nil => rfl
  | cons a as ih =>
    have ha : g a = .ok a := h a (List.mem_cons_self a as)
    have has : resMapList g as = .ok as := ih (fun x hx => h x (List.mem_cons_of_mem a hx))
    simp only [resMapList, ha, has]
    rfl

/-- A statement that is not a `yield_*` call is left unchanged by
`fix_statement`. -/
theorem fix_statement_not_yield (out_ty : StructSpecifier) (st : Statement)
    (h : is_yield_stmt st = false) : fix_statement out_ty st = .ok st := by
  cases st with
  | Compound c => rfl
  | Simple s =>
    cases s with
    | Declaration d => rfl
    | Expression oe =>
      cases oe with
      | none => rfl
      | some e =>
        cases e with
        | Variable n => rfl
        | IntConst v => rfl
        | Assignment l op r => rfl
        | Dot e f => rfl
        | Bracket e a => rfl
        | FunCall fi args =>
          cases fi with
          | Expr e => rfl
          | Identifier fni =>
            simp only [is_yield_stmt, Bool.or_eq_false_iff] at h
            simp only [fix_statement, h.1, h.2]
            rfl

/-- Claim C9: when `concat_map_prim`'s top-level statement list contains no
expression-statement call to `yield_vertex` or `yield_primitive`,
`fix_concat_map_prim` succeeds with the statement list unchanged and the
parameter list truncated to its first element. -/
theorem fix_concat_map_prim_no_yield (f : FunctionDefinition)
    (out_ty : StructSpecifier)
    (h : ∀ st ∈ f.statement.statement_list, is_yield_stmt st = false) :
    fix_concat_map_prim f out_ty =
      .ok { prototype := { f.prototype with
              parameters := f.prototype.parameters.take 1 },
            statement := .mk f.statement.statement_list } := by
  have hmap : resMapList (fix_statement out_ty) f.statement.statement_list =
      .ok f.statement.statement_list :=
    resMapList_id _ _ (fun st hst => fix_statement_not_yield out_ty st (h st hst))
  simp only [fix_concat_map_prim, bind, hmap]
  rfl

/-- Witness for C9: a concrete `concat_map_prim` whose body is an empty
expression statement and a non-yield call; the rewrite keeps the two
statements and drops the second parameter. -/
theorem fix_concat_map_prim_no_yield_witness :
    fix_concat_map_prim
      { prototype := { ty := { qualifier := none, ty := .mk .Void none },
                       name := "concat_map_prim",
                       parameters := [.Named none ⟨.mk (.TypeName "Vertex") none, "verts", none⟩,
                                      .Named none ⟨.mk (.TypeName "G") none, "g", none⟩] },
        statement := .mk [.Simple (.Expression none),
                          .Simple (.Expression (some (.FunCall (.Identifier "helper") [])))] }
      fStruct =
    .ok { prototype := { ty := { qualifier := none, ty := .mk .Void none },
                         name := "concat_map_prim",
                         parameters := [.Named none ⟨.mk (.TypeName "Vertex") none, "verts", none⟩] },
          statement := .mk [.Simple (.Expression none),
                            .Simple (.Expression (some (.FunCall (.Identifier "helper") [])))] } := by
  exact fix_concat_map_prim_no_yield _ _ (by
    intro st hst
    cases hst with
    | head => rfl
    | tail _ h2 =>
      cases h2 with
      | head => rfl
      | tail _ h3 => cases h3)

/-- Claim C10: when the vertex return type resolves to a struct whose field
list is empty, `vertex_shader_outputs` panics (the out-of-bounds
`s.fields[0]`, `module.rs` line 585) instead of returning a conversion
error: the validation is total only for structs with at least one field. -/
theorem vertex_outputs_empty_struct_crash (fsty : FullySpecifiedType)
    (structs : List StructSpecifier) (ty_name : String) (s : StructSpecifier)
    (hq : fsty.qualifier = none) (hty : fsty.ty.ty = .TypeName ty_name)
    (hlook : lookup_struct ty_name structs = some s) (hfields : s.fields = []) :
    vertex_shader_outputs fsty structs = Res.crash := by
  simp only [vertex_shader_outputs, hq, Option.isSome_none, Bool.false_eq_true,
    if_false, hty, hlook, hfields, List.head?_nil]

/-- Witness for C10: the empty struct `E` as return type makes the vertex
lowerer crash. -/
theorem vertex_outputs_empty_struct_crash_witness :
    vertex_shader_outputs { qualifier := none, ty := .mk (.TypeName "E") none }
      [.mk (some "E") []] = Res.crash :=
  vertex_outputs_empty_struct_crash _ _ "E" (.mk (some "E") []) rfl rfl rfl rfl

/-- Claim C7: `guess_gs_input_prim` maps the literal dimensions 1, 2, 3, 4, 6
to `points`, `lines`, `triangles`, `lines_adjacency`, `triangles_adjacency`;
any other (nonnegative, `i32`-ranged) literal fails with
`WrongGeometryInputDim` carrying that value; a missing or non-literal array
specifier fails with `WrongGeometryInput`. -/
theorem gs_input_prim_characterization :
    (guess_gs_input_prim (some (.ExplicitlySized (.IntConst 1))) =
      .ok (1, ⟨[.Identifier "points" none]⟩)) ∧
    (guess_gs_input_prim (some (.ExplicitlySized (.IntConst 2))) =
      .ok (2, ⟨[.Identifier "lines" none]⟩)) ∧
    (guess_gs_input_prim (some (.ExplicitlySized (.IntConst 3))) =
      .ok (3, ⟨[.Identifier "triangles" none]⟩)) ∧
    (guess_gs_input_prim (some (.ExplicitlySized (.IntConst 4))) =
      .ok (4, ⟨[.Identifier "lines_adjacency" none]⟩)) ∧
    (guess_gs_input_prim (some (.ExplicitlySized (.IntConst 6))) =
      .ok (6, ⟨[.Identifier "triangles_adjacency" none]⟩)) ∧
    (∀ n : Int, 0 ≤ n → n < 2147483648 →
      n ≠ 1 → n ≠ 2 → n ≠ 3 → n ≠ 4 → n ≠ 6 →
      guess_gs_input_prim (some (.ExplicitlySized (.IntConst n))) =
        .error (.WrongGeometryInputDim n.toNat)) ∧
    (guess_gs_input_prim none = .error .WrongGeometryInput) ∧
    (∀ a : ArraySpecifier, is_int_literal_spec a = false →
      guess_gs_input_prim (some a) = .error .WrongGeometryInput) := by
  refine ⟨rfl, rfl, rfl, rfl, rfl, ?_, rfl, ?_⟩
  · intro n h0 hlt h1 h2 h3 h4 h6
    have hm : usize_of_i32 n = n.toNat := by
      unfold usize_of_i32
      rw [Int.emod_eq_of_lt h0 (by omega)]
    simp only [guess_gs_input_prim, if_neg h1, if_neg h2, if_neg h3, if_neg h4,
      if_neg h6, hm]
  · intro a ha
    cases a with
    | Unsized => rfl
    | ExplicitlySized e =>
      cases e with
      | IntConst v => simp [is_int_literal_spec] at ha
      | Variable n => rfl
      | Assignment l op r => rfl
      | Dot e f => rfl
      | Bracket e s => rfl
      | FunCall fi args => rfl

/-- Witness for C7: the dimension 5 is rejected with
`WrongGeometryInputDim 5`, and a missing specifier with
`WrongGeometryInput`. -/
theorem gs_input_prim_characterization_witness :
    guess_gs_input_prim (some (.ExplicitlySized (.IntConst 5))) =
      .error (.WrongGeometryInputDim 5) ∧
    guess_gs_input_prim (some .Unsized) = .error .WrongGeometryInput := by
  constructor
  · exact gs_input_prim_characterization.2.2.2.2.2.1 5 (by decide) (by decide)
      (by decide) (by decide) (by decide) (by decide) (by decide)
  · exact gs_input_prim_characterization.2.2.2.2.2.2.2 .Unsized rfl

/-- Counterexample to claim C8: in the successfully lowered `pipeline2`, the
vertex return struct `Vertex` has a struct definition both in the vertex
source (its owner stage) and in the fragment source — so there is a stage
other than the owner containing a struct definition for it. -/
theorem struct_elision_counterexample :
    pipeline2.to_glsl_setup = .ok pipeline2_fold ∧
    containsSub pipeline2_fold.vs "struct Vertex" = true ∧
    containsSub pipeline2_fold.fs "struct Vertex" = true := ⟨rfl, rfl, rfl⟩

/-- Amended claim C8 on the example pipeline: stage-local structs are elided
from the shared common prelude, and each stage emits the struct definitions
its interface needs — the owner emits its own struct, and the consuming stage
re-emits the previous stage's return struct with the first field dropped.  So
`vs` holds the full `Vertex` definition and no `F` definition; `fs` holds its
own `F` and the field-dropped `Vertex` (not the full one). -/
theorem struct_elision_amended :
    pipeline2.to_glsl_setup = .ok pipeline2_fold ∧
    containsSub pipeline2_fold.vs
      "struct Vertex \x7b\nvec4 chdr_Position;\nvec4 color;\n\x7d;" = true ∧
    containsSub pipeline2_fold.fs "struct Vertex \x7b\nvec4 color;\n\x7d;" = true ∧
    containsSub pipeline2_fold.fs "struct F \x7b\nvec4 c;\n\x7d;" = true ∧
    containsSub pipeline2_fold.vs "struct F" = false ∧
    containsSub pipeline2_fold.fs "struct Vertex \x7b\nvec4 chdr_Position" = false :=
  ⟨rfl, rfl, rfl, rfl, rfl, rfl⟩

/-- Counterexample to claim C6: for `map_vertex(vec3 p, vec3)` (second slot
unnamed), the emitted `void main()` calls `map_vertex(p)` — one argument for
two parameter slots and no `chdr_unused1` placeholder — because the call-site
arguments are built from the parameter list of the already-reduced
`map_vertex` (`module.rs` line 452). -/
theorem unused_arg_counterexample :
    sink_vertex_shader_input_args (remove_unused_args_fn mapVertexUnnamed) = "p" ∧
    claimed_call_args mapVertexUnnamed = "p, chdr_unused1" ∧
    ("p" : String) ≠ "p, chdr_unused1" ∧
    (match sink_vertex_shader mapVertexUnnamed [vertexStruct2] with
     | .ok r => containsSub r.1 "map_vertex(p);" && !(containsSub r.1 "chdr_unused")
     | _ => false) = true :=
  ⟨rfl, rfl, by decide, rfl⟩

/-- All parameters surviving `remove_unused_args_fn` are named. -/
theorem mem_filter_named (l : List FunctionParameterDeclaration) :
    ∀ p ∈ l.filter is_fn_arg_named, is_fn_arg_named p = true :=
  fun _ hp => (List.mem_filter.mp hp).2

/-- On an all-named suffix, the comma-separated tail of the argument string
ignores the slot indices. -/
theorem join_named_args (l : List FunctionParameterDeclaration) (n : Nat)
    (h : ∀ p ∈ l, is_fn_arg_named p = true) :
    str_concat ((List.enumFrom n l).map (fun p =>
      if is_fn_arg_named p.2 then ", " ++ sink_vertex_shader_input_arg (p.1 + 1) p.2
      else "")) =
    str_concat (l.map (fun p => ", " ++ named_param_name p)) := by
  induction l generalizing n with
  | nil => rfl
  | cons a rest ih =>
    have ha : is_fn_arg_named a = true := h a (List.mem_cons_self a rest)
    have harg : sink_vertex_shader_input_arg (n + 1) a = named_param_name a := by
      cases a with
      | Named q d => rfl
      | Unnamed q t => simp [is_fn_arg_named] at ha
    simp only [List.enumFrom, List.map_cons, str_concat, ha, if_pos, harg]
    rw [ih (n + 1) (fun p hp => h p (List.mem_cons_of_mem a hp))]

/-- The argument string of an all-named parameter list is the comma-join of
the parameter names. -/
theorem sink_args_all_named (f : FunctionDefinition)
    (h : ∀ p ∈ f.prototype.parameters, is_fn_arg_named p = true) :
    sink_vertex_shader_input_args f =
      join_comma (f.prototype.parameters.map named_param_name) := by
  unfold sink_vertex_shader_input_args
  cases hl : f.prototype.parameters with
  | nil => rfl
  | cons a rest =>
    have hmem : ∀ p ∈ a :: rest, is_fn_arg_named p = true := by rw [← hl]; exact h
    have ha : is_fn_arg_named a = true := hmem a (List.mem_cons_self a rest)
    have harg : sink_vertex_shader_input_arg 0 a = named_param_name a := by
      cases a with
      | Named q d => rfl
      | Unnamed q t => simp [is_fn_arg_named] at ha
    have hrest : ∀ p ∈ rest, is_fn_arg_named p = true :=
      fun p hp => hmem p (List.mem_cons_of_mem a hp)
    simp only [harg, join_comma, List.map_cons, List.map_map]
    rw [show rest.enum = List.enumFrom 0 rest from rfl,
      join_named_args rest 0 hrest]
    rfl

/-- Amended claim C6: the emitted call to `map_vertex` passes one argument
per *named* parameter, in order, each by its own name; unnamed parameters are
elided by `remove_unused_args_fn` before the call site is emitted, so they
contribute no argument and the `chdr_unused<i>` placeholder is never passed. -/
theorem unused_args_amended (f : FunctionDefinition) :
    sink_vertex_shader_input_args (remove_unused_args_fn f) =
      join_comma ((f.prototype.parameters.filter is_fn_arg_named).map
        named_param_name) := by
  have h := sink_args_all_named (remove_unused_args_fn f) (by
    intro p hp
    exact mem_filter_named f.prototype.parameters p hp)
  exact h

/-- `fields_to_single_decls` succeeds on a field list without struct-typed
fields. -/
theorem fields_to_single_decls_ok (fields : List StructFieldSpecifier)
    (pre : String) (h : ∀ f ∈ fields, f.ty.ty.isStruct = false) :
    ∃ ds, fields_to_single_decls fields pre = .ok ds := by
  induction fields with
  | nil => exact ⟨[], rfl⟩
  | cons f rest ih =>
    obtain ⟨ds, hds⟩ := ih (fun x hx => h x (List.mem_cons_of_mem f hx))
    have hf : f.ty.ty.isStruct = false := h f (List.mem_cons_self f rest)
    cases hres : fields_to_single_decls (f :: rest) pre with
    | ok ds2 => exact ⟨ds2, rfl⟩
    | error e =>
      simp only [fields_to_single_decls, hf, Bool.false_eq_true, if_false,
        hds] at hres
      exact Except.noConfusion hres

/-- `is_vec4` decides equality with the `vec4` constructor. -/
theorem is_vec4_iff (t : TypeSpecifierNonArray) : is_vec4 t = true ↔ t = .Vec4 := by
  cases t <;> simp [is_vec4]

/-- `is_chdr_position_ids` decides being exactly `[("chdr_Position", none)]`. -/
theorem is_chdr_position_ids_iff (ids : List (String × Option ArraySpecifier)) :
    is_chdr_position_ids ids = true ↔ ids = [("chdr_Position", none)] := by
  cases ids with
  | nil => simp [is_chdr_position_ids]
  | cons hd tl =>
    cases tl with
    | cons hd2 tl2 => simp [is_chdr_position_ids]
    | nil =>
      rcases hd with ⟨n, oa⟩
      cases oa with
      | none => simp [is_chdr_position_ids]
      | some a => simp [is_chdr_position_ids]

/-- `Option.isSome` is false exactly on `none` (specialised helper). -/
theorem isSome_false_iff (o : Option TypeQualifier) : o.isSome = false ↔ o = none := by
  cases o <;> simp

/-- The boolean first-field check of `vertex_shader_outputs` is false exactly
when the field is an unqualified `vec4` named `chdr_Position`. -/
theorem first_field_check_iff (ff : StructFieldSpecifier) :
    ((ff.qualifier.isSome || !is_vec4 ff.ty.ty ||
      !is_chdr_position_ids ff.identifiers) = false) ↔
    exactly_unqualified_vec4_position ff := by
  simp only [Bool.or_eq_false_iff, Bool.not_eq_false', is_vec4_iff,
    is_chdr_position_ids_iff, isSome_false_iff, and_assoc,
    exactly_unqualified_vec4_position]

/-- Claim C5: the vertex lowerer's return-type validation, case by case.  A
top-level qualifier fails with `OutputHasMainQualifier`; a name that does not
resolve in the struct table (or a non-name return type) fails with
`ReturnTypeMustBeAStruct`; a wrong first field fails with
`WrongOutputFirstField`; otherwise (given the post-`chdr_Position` fields are
not struct-typed, which is the only remaining rejection) the validation
succeeds.  (The first-field case assumes the struct has a field at all: an
empty struct panics — claim C10.) -/
theorem vertex_output_validation (fsty : FullySpecifiedType)
    (structs : List StructSpecifier) :
    (fsty.qualifier.isSome = true →
      vertex_shader_outputs fsty structs = .err .OutputHasMainQualifier) ∧
    (∀ ty_name, fsty.qualifier = none → fsty.ty.ty = .TypeName ty_name →
      lookup_struct ty_name structs = none →
      vertex_shader_outputs fsty structs = .err (.ReturnTypeMustBeAStruct fsty.ty)) ∧
    ((∀ ty_name, fsty.ty.ty ≠ .TypeName ty_name) → fsty.qualifier = none →
      vertex_shader_outputs fsty structs = .err (.ReturnTypeMustBeAStruct fsty.ty)) ∧
    (∀ ty_name s ff, fsty.qualifier = none → fsty.ty.ty = .TypeName ty_name →
      lookup_struct ty_name structs = some s → s.fields.head? = some ff →
      ¬ exactly_unqualified_vec4_position ff →
      vertex_shader_outputs fsty structs = .err (.WrongOutputFirstField ff)) ∧
    (∀ ty_name s ff, fsty.qualifier = none → fsty.ty.ty = .TypeName ty_name →
      lookup_struct ty_name structs = some s → s.fields.head? = some ff →
      exactly_unqualified_vec4_position ff →
      (∀ f ∈ s.fields.drop 1, f.ty.ty.isStruct = false) →
      ∃ ds, vertex_shader_outputs fsty structs = .ok ds) := by
  refine ⟨?_, ?_, ?_, ?_, ?_⟩
  · intro hq
    simp only [vertex_shader_outputs, hq, if_true]
  · intro ty_name hq hty hlook
    simp only [vertex_shader_outputs, hq, Option.isSome_none, Bool.false_eq_true,
      if_false, hty, hlook]
  · intro hnot hq
    cases hty : fsty.ty.ty with
    | TypeName n => exact absurd hty (hnot n)
    | Void => simp only [vertex_shader_outputs, hq, Option.isSome_none,
        Bool.false_eq_true, if_false, hty]
    | Float => simp only [vertex_shader_outputs, hq, Option.isSome_none,
        Bool.false_eq_true, if_false, hty]
    | Vec2 => simp only [vertex_shader_outputs, hq, Option.isSome_none,
        Bool.false_eq_true, if_false, hty]
    | Vec3 => simp only [vertex_shader_outputs, hq, Option.isSome_none,
        Bool.false_eq_true, if_false, hty]
    | Vec4 => simp only [vertex_shader_outputs, hq, Option.isSome_none,
        Bool.false_eq_true, if_false, hty]
    | Struct s => simp only [vertex_shader_outputs, hq, Option.isSome_none,
        Bool.false_eq_true, if_false, hty]
  · intro ty_name s ff hq hty hlook hhead hnot
    have hcheck : (ff.qualifier.isSome || !is_vec4 ff.ty.ty ||
        !is_chdr_position_ids ff.identifiers) = true := by
      cases hc : (ff.qualifier.isSome || !is_vec4 ff.ty.ty ||
          !is_chdr_position_ids ff.identifiers) with
      | true => rfl
      | false => exact absurd ((first_field_check_iff ff).mp hc) hnot
    simp only [vertex_shader_outputs, hq, Option.isSome_none, Bool.false_eq_true,
      if_false, hty, hlook, hhead, hcheck, if_true]
  · intro ty_name s ff hq hty hlook hhead hok htail
    have hcheck : (ff.qualifier.isSome || !is_vec4 ff.ty.ty ||
        !is_chdr_position_ids ff.identifiers) = false :=
      (first_field_check_iff ff).mpr hok
    obtain ⟨ds, hds⟩ := fields_to_single_decls_ok (s.fields.drop 1) "chdr_v_" htail
    refine ⟨ds, ?_⟩
    simp only [vertex_shader_outputs, hq, Option.isSome_none, Bool.false_eq_true,
      if_false, hty, hlook, hhead, hcheck, hds, liftE]

/-- Witness for C5: a qualified return type is rejected, and the plain
`Vertex` return type of the example pipeline validates successfully. -/
theorem vertex_output_validation_witness :
    vertex_shader_outputs
      { qualifier := some ⟨[.Storage .Out]⟩, ty := .mk (.TypeName "Vertex") none }
      [vertexStruct2] = .err .OutputHasMainQualifier ∧
    ∃ ds, vertex_shader_outputs
      { qualifier := none, ty := .mk (.TypeName "Vertex") none }
      [vertexStruct2] = .ok ds := by
  constructor
  · exact (vertex_output_validation _ _).1 rfl
  · exact (vertex_output_validation _ _).2.2.2.2 "Vertex" vertexStruct2
      (vec4Field "chdr_Position") rfl rfl rfl rfl ⟨rfl, rfl, rfl⟩ (by decide)

/-! ### Resolver invariants -/

/-- The empty dependency list is topologically closed. -/
theorem topoOk_nil (store : Store) : TopoOk store [] := by
  intro pre m h
  have := h.length_le
  simp at this

/-- A prefix of `l₂ ++ [a]` is a prefix of `l₂` or the whole list. -/
theorem prefix_snoc_cases {l₁ l₂ : List ModuleKey} {a : ModuleKey}
    (h : l₁ <+: l₂ ++ [a]) : l₁ <+: l₂ ∨ l₁ = l₂ ++ [a] := by
  rcases h with ⟨t, ht⟩
  rcases t.eq_nil_or_concat with rfl | ⟨t', b, rfl⟩
  · right; rw [← ht, List.append_nil]
  · left
    rw [List.concat_eq_append, ← List.append_assoc] at ht
    exact ⟨t', (List.append_inj' ht rfl).1⟩

/-- Appending a loadable key whose imports are already present preserves
topological closure. -/
theorem topoOk_snoc {store : Store} {deps : List ModuleKey} {mk : ModuleKey}
    {child : Module} (h : TopoOk store deps) (hsm : store mk = some child)
    (hsub : ∀ n ∈ child.importKeys, n ∈ deps) : TopoOk store (deps ++ [mk]) := by
  intro pre m hpre
  rcases prefix_snoc_cases hpre with h' | h'
  · exact h pre m h'
  · obtain ⟨rfl, hm⟩ := List.append_inj' h' rfl
    have hmmk : m = mk := by injection hm
    subst hmmk
    exact ⟨child, hsm, hsub⟩

/-- The loop invariant: if every successful inner call satisfies the node
invariant, every successful `deps_loop` run satisfies `LoopOut`. -/
theorem loop_inv (store : Store)
    (recur : Module → ModuleKey → List ModuleKey → List ModuleKey →
      Option (Except DepsError DepsState))
    (hrec : ∀ child mk P D r, recur child mk P D = some (.ok r) →
      LoopOut store child.importKeys (P ++ [mk]) D r) :
    ∀ (imps P D : List ModuleKey) (r : DepsState),
      deps_loop recur store imps P D = some (.ok r) → LoopOut store imps P D r := by
  intro imps
  induction imps with
  | nil =>
    intro P D r h
    simp only [deps_loop, Option.some.injEq, Except.ok.injEq] at h
    subst h
    exact ⟨rfl, List.prefix_refl D, fun x hx => Or.inl hx, fun ht => ht,
      fun n hn => absurd hn (List.not_mem_nil n), fun hd => hd⟩
  | cons mk rest ih =>
    intro P D r h
    simp only [deps_loop] at h
    by_cases hmD : mk ∈ D
    · rw [if_pos hmD] at h
      obtain ⟨h1, h2, h3, h4, h5, h6⟩ := ih P D r h
      refine ⟨h1, h2, h3, h4, ?_, h6⟩
      intro n hn
      rcases List.mem_cons.mp hn with rfl | hn'
      · exact h2.subset hmD
      · exact h5 n hn'
    · rw [if_neg hmD] at h
      by_cases hmP : mk ∈ P
      · rw [if_pos hmP] at h
        simp at h
      · rw [if_neg hmP] at h
        cases hsm : store mk with
        | none => simp only [hsm] at h; simp at h
        | some child =>
          simp only [hsm] at h
          cases hrc : recur child mk P D with
          | none => simp only [hrc] at h; simp at h
          | some ex =>
            cases ex with
            | error e => simp only [hrc] at h; simp at h
            | ok st =>
              rcases st with ⟨parents1, deps1⟩
              simp only [hrc] at h
              obtain ⟨hN1, hN2, hN3, hN4, hN5, hN6⟩ :=
                hrec child mk P D (parents1, deps1) hrc
              simp only at hN1
              rw [hN1, List.dropLast_concat] at h
              obtain ⟨hL1, hL2, hL3, hL4, hL5, hL6⟩ := ih P (deps1 ++ [mk]) r h
              have hmk_mem : mk ∈ deps1 ++ [mk] :=
                List.mem_append.mpr (Or.inr (List.mem_singleton.mpr rfl))
              refine ⟨hL1, ?_, ?_, ?_, ?_, ?_⟩
              · exact hN2.trans ((List.prefix_append deps1 [mk]).trans hL2)
              · intro x hx
                rcases hL3 x hx with hx1 | hx1
                · rcases List.mem_append.mp hx1 with hx2 | hx2
                  · rcases hN3 x hx2 with hxD | ⟨hs, hnp⟩
                    · exact Or.inl hxD
                    · exact Or.inr ⟨hs, fun hxP => hnp (List.mem_append.mpr (Or.inl hxP))⟩
                  · rw [List.mem_singleton.mp hx2]
                    exact Or.inr ⟨by simp [hsm], hmP⟩
                · exact Or.inr hx1
              · intro hT
                exact hL4 (topoOk_snoc (hN4 hT) hsm hN5)
              · intro n hn
                rcases List.mem_cons.mp hn with rfl | hn'
                · exact hL2.subset hmk_mem
                · exact hL5 n hn'
              · rintro ⟨hnd, hdisj⟩
                have pre1 : D.Nodup ∧ ∀ x ∈ P ++ [mk], x ∉ D := by
                  refine ⟨hnd, fun x hx => ?_⟩
                  rcases List.mem_append.mp hx with h1 | h1
                  · exact hdisj x h1
                  · rw [List.mem_singleton.mp h1]; exact hmD
                obtain ⟨hnd1, hdisj1⟩ := hN6 pre1
                have hmk_notin : mk ∉ deps1 :=
                  hdisj1 mk (List.mem_append.mpr (Or.inr (List.mem_singleton.mpr rfl)))
                have hnd2 : (deps1 ++ [mk]).Nodup := by
                  rw [List.nodup_append]
                  exact ⟨hnd1, List.nodup_singleton mk,
                    fun x hx1 hx2 => by
                      rw [List.mem_singleton.mp hx2] at hx1
                      exact hmk_notin hx1⟩
                have hdisj2 : ∀ x ∈ P, x ∉ deps1 ++ [mk] := by
                  intro x hx hmem
                  rcases List.mem_append.mp hmem with h1 | h1
                  · exact hdisj1 x (List.mem_append.mpr (Or.inl hx)) h1
                  · rw [List.mem_singleton.mp h1] at hx
                    exact hmP hx
                exact hL6 ⟨hnd2, hdisj2⟩

/-- Every successful `deps_no_cycle` run satisfies the loop invariant over
the module's import list with the key pushed on the parents stack. -/
theorem node_inv (store : Store) : ∀ (fuel : Nat) (m : Module) (key : ModuleKey)
    (P D : List ModuleKey) (r : DepsState),
    deps_no_cycle store fuel m key P D = some (.ok r) →
    LoopOut store m.importKeys (P ++ [key]) D r := by
  intro fuel
  induction fuel with
  | zero => intro m key P D r h; exact Option.noConfusion h
  | succ f ih =>
    intro m key P D r h
    exact loop_inv store (deps_no_cycle store f)
      (fun child mk P' D' r' h' => ih child mk P' D' r' h') _ _ _ _ h

/-- Inversion of `Module.deps` on success. -/
theorem deps_ok_inv (m : Module) (store : Store) (fuel : Nat) (key : ModuleKey)
    (deps : List ModuleKey) (h : m.deps store fuel key = some (.ok deps)) :
    ∃ P', deps_no_cycle store fuel m key [] [] = some (.ok (P', deps)) := by
  unfold Module.deps at h
  cases hd : deps_no_cycle store fuel m key [] [] with
  | none => rw [hd] at h; exact Option.noConfusion h
  | some ex =>
    cases ex with
    | error e => rw [hd] at h; simp at h
    | ok st =>
      rcases st with ⟨P', d⟩
      rw [hd] at h
      simp at h
      subst h
      exact ⟨P', rfl⟩

/-- Inversion of `Module.deps` on error. -/
theorem deps_err_inv (m : Module) (store : Store) (fuel : Nat) (key : ModuleKey)
    (e : DepsError) (h : m.deps store fuel key = some (.error e)) :
    deps_no_cycle store fuel m key [] [] = some (.error e) := by
  unfold Module.deps at h
  cases hd : deps_no_cycle store fuel m key [] [] with
  | none => rw [hd] at h; exact Option.noConfusion h
  | some ex =>
    cases ex with
    | error e' =>
      rw [hd] at h
      simp at h
      rw [h]
    | ok st => rcases st with ⟨P', d⟩; rw [hd] at h; simp at h

/-- Inversion of `Module.gather` on success. -/
theorem gather_ok_inv (m : Module) (store : Store) (fuel : Nat)
    (key : ModuleKey) (folded : Module) (deps : List ModuleKey)
    (h : m.gather store fuel key = some (.ok (folded, deps))) :
    m.deps store fuel key = some (.ok deps) ∧
    ∃ mods, lookupAll store deps = some mods ∧
      folded = { imports := [], glsl := (mods.map Module.glsl).flatten ++ m.glsl } := by
  unfold Module.gather at h
  cases hd : m.deps store fuel key with
  | none => rw [hd] at h; exact Option.noConfusion h
  | some ex =>
    cases ex with
    | error e => rw [hd] at h; simp at h
    | ok d =>
      rw [hd] at h
      simp only [] at h
      cases hl : lookupAll store d with
      | none => rw [hl] at h; exact Option.noConfusion h
      | some mods =>
        rw [hl] at h
        have h1 := Option.some.inj h
        have h2 := Except.ok.inj h1
        injection h2 with ha hb
        subst hb
        exact ⟨rfl, mods, hl, ha.symm⟩

/-- Inversion of `Module.gather` on error. -/
theorem gather_err_inv (m : Module) (store : Store) (fuel : Nat)
    (key : ModuleKey) (e : DepsError)
    (h : m.gather store fuel key = some (.error e)) :
    m.deps store fuel key = some (.error e) := by
  unfold Module.gather at h
  cases hd : m.deps store fuel key with
  | none => rw [hd] at h; exact Option.noConfusion h
  | some ex =>
    cases ex with
    | error e' =>
      rw [hd] at h
      simp at h
      rw [h]
    | ok d =>
      rw [hd] at h
      simp only [] at h
      cases hl : lookupAll store d with
      | none => rw [hl] at h; exact Option.noConfusion h
      | some mods => rw [hl] at h; simp at h

/-- The consequences of a successful `Module.deps` run: no duplicates, the
root key is absent, topological closure, the root's imports are present, and
every entry loads. -/
theorem deps_ok_properties (m : Module) (store : Store) (fuel : Nat)
    (key : ModuleKey) (deps : List ModuleKey)
    (h : m.deps store fuel key = some (.ok deps)) :
    deps.Nodup ∧ key ∉ deps ∧ TopoOk store deps ∧
    (∀ n ∈ m.importKeys, n ∈ deps) ∧ (∀ x ∈ deps, (store x).isSome) := by
  obtain ⟨P', hd⟩ := deps_ok_inv m store fuel key deps h
  obtain ⟨_, _, h3, h4, h5, h6⟩ := node_inv store fuel m key [] [] (P', deps) hd
  have hnodup := h6 ⟨List.nodup_nil, fun x _ => List.not_mem_nil x⟩
  refine ⟨hnodup.1, ?_, h4 (topoOk_nil store), h5, ?_⟩
  · exact hnodup.2 key (by simp)
  · intro x hx
    rcases h3 x hx with hc | hc
    · exact absurd hc (List.not_mem_nil x)
    · exact hc.1

/-- An element of a topologically closed list has all its imports strictly
before it, also in the list extended with the root key. -/
theorem topoOk_before (store : Store) (deps : List ModuleKey) (key : ModuleKey)
    (hnd : deps.Nodup) (ht : TopoOk store deps)
    (d : ModuleKey) (M : Module) (n : ModuleKey)
    (hd : d ∈ deps) (hM : store d = some M) (hn : n ∈ M.importKeys) :
    appearsBefore (deps ++ [key]) n d := by
  obtain ⟨pre, suf, rfl⟩ := List.append_of_mem hd
  obtain ⟨M', hM', hsub⟩ := ht pre d ⟨suf, by simp⟩
  rw [hM] at hM'
  have hMM : M = M' := by injection hM'
  have hpre : n ∈ pre := hsub n (by rw [← hMM]; exact hn)
  obtain ⟨p₁, p₂, rfl⟩ := List.append_of_mem hpre
  exact ⟨p₁, p₂, suf ++ [key], by simp⟩

/-- Any member of `deps` appears before the root key in `deps ++ [key]`. -/
theorem mem_before_key (deps : List ModuleKey) (key n : ModuleKey)
    (hn : n ∈ deps) : appearsBefore (deps ++ [key]) n key := by
  obtain ⟨p₁, p₂, rfl⟩ := List.append_of_mem hn
  exact ⟨p₁, p₂, [], by simp⟩

/-- Claim C2: a successful `gather` returns a duplicate-free dependency list
in topological order — every dependency's module loads, and for every import
edge `d → n` (of a dependency `d` or of the root), `n` appears strictly
before `d` (resp. before the root key) in `deps ++ [key]`. -/
theorem gather_topological (m : Module) (store : Store) (fuel : Nat)
    (key : ModuleKey) (folded : Module) (deps : List ModuleKey)
    (h : m.gather store fuel key = some (.ok (folded, deps))) :
    deps.Nodup ∧
    (∀ x ∈ deps, (store x).isSome) ∧
    (∀ d M n, d ∈ deps → store d = some M → n ∈ M.importKeys →
      appearsBefore (deps ++ [key]) n d) ∧
    (∀ n ∈ m.importKeys, appearsBefore (deps ++ [key]) n key) := by
  obtain ⟨hdeps, _⟩ := gather_ok_inv m store fuel key folded deps h
  obtain ⟨hnd, _, ht, hroot, hsome⟩ := deps_ok_properties m store fuel key deps hdeps
  exact ⟨hnd, hsome,
    fun d M n hd hM hn => topoOk_before store deps key hnd ht d M n hd hM hn,
    fun n hn => mem_before_key deps key n (hroot n hn)⟩

/-- Witness for C2: the diamond `a → b, c`; `b, c → d` resolves without error
to deps `[d, b, c]`, listing `d` exactly once; the theorem applies and yields
`Nodup`. -/
theorem gather_topological_witness :
    diamondA.gather diamondStore 10 "a" =
      some (.ok ({ imports := [], glsl := [structDecl fStruct] }, ["d", "b", "c"])) ∧
    (["d", "b", "c"] : List ModuleKey).count "d" = 1 ∧
    (["d", "b", "c"] : List ModuleKey).Nodup := by
  refine ⟨rfl, by decide, ?_⟩
  exact (gather_topological diamondA diamondStore 10 "a" _ _ rfl).1

/-- Claim C4: a successful `gather` returns a folded module with an
empty import list whose declaration list is the concatenation, in `deps` order, of
the dependencies' declarations followed by the root's own declarations. -/
theorem gather_fold (m : Module) (store : Store) (fuel : Nat) (key : ModuleKey)
    (folded : Module) (deps : List ModuleKey)
    (h : m.gather store fuel key = some (.ok (folded, deps))) :
    folded.imports = [] ∧
    ∃ mods, lookupAll store deps = some mods ∧
      folded.glsl = (mods.map Module.glsl).flatten ++ m.glsl := by
  obtain ⟨_, mods, hmods, rfl⟩ := gather_ok_inv m store fuel key folded deps h
  exact ⟨rfl, mods, hmods, rfl⟩

/-- Witness for C4: in the diamond, the folded module holds `d`'s declaration
followed by the (empty) declarations of `b`, `c` and the root. -/
theorem gather_fold_witness :
    ({ imports := [], glsl := [structDecl fStruct] } : Module).imports = [] ∧
    ∃ mods, lookupAll diamondStore ["d", "b", "c"] = some mods ∧
      ({ imports := [], glsl := [structDecl fStruct] } : Module).glsl =
        (mods.map Module.glsl).flatten ++ diamondA.glsl :=
  gather_fold diamondA diamondStore 10 "a"
    { imports := [], glsl := [structDecl fStruct] } ["d", "b", "c"] rfl

/-! ### Cycle detection (claim C3) -/

/-- Destructor for the import relation. -/
theorem Imp.exists_module {store : Store} {a b : ModuleKey} (h : Imp store a b) :
    ∃ M, store a = some M ∧ b ∈ M.importKeys := by
  cases h with
  | mk h1 h2 => exact ⟨_, h1, h2⟩

/-- Following a chain from any member reaches the last element. -/
theorem chain'_to_getLast {R : ModuleKey → ModuleKey → Prop} (l : List ModuleKey) :
    ∀ (hl : l ≠ []) (a : ModuleKey), a ∈ l → List.Chain' R l →
      Relation.ReflTransGen R a (l.getLast hl) := by
  induction l with
  | nil => intro hl; exact absurd rfl hl
  | cons x xs ih =>
    intro hl a ha hc
    cases xs with
    | nil =>
      rw [List.mem_singleton.mp ha]
      exact Relation.ReflTransGen.refl
    | cons y ys =>
      have hc' := List.chain'_cons.mp hc
      have hlast : (x :: y :: ys).getLast hl = (y :: ys).getLast (by simp) :=
        List.getLast_cons (by simp)
      rcases List.mem_cons.mp ha with rfl | ha'
      · rw [hlast]
        exact Relation.ReflTransGen.head hc'.1
          (ih (by simp) y (List.mem_cons_self y ys) hc'.2)
      · rw [hlast]
        exact ih (by simp) a ha' hc'.2

/-- A chain extends by one related element at the end. -/
theorem chain'_snoc {R : ModuleKey → ModuleKey → Prop} (l : List ModuleKey)
    (hl : l ≠ []) (b : ModuleKey) (hc : List.Chain' R l)
    (hR : R (l.getLast hl) b) : List.Chain' R (l ++ [b]) := by
  rw [List.chain'_append]
  refine ⟨hc, List.chain'_singleton b, ?_⟩
  intro x hx y hy
  rw [List.getLast?_eq_getLast l hl, Option.mem_some_iff] at hx
  rw [show ([b] : List ModuleKey).head? = some b from rfl, Option.mem_some_iff] at hy
  subst hx
  subst hy
  exact hR

/-- The last element of `l ++ [a]` is `a`. -/
theorem getLast_snoc : ∀ (l : List ModuleKey) (a : ModuleKey) (h : l ++ [a] ≠ []),
    (l ++ [a]).getLast h = a := by
  intro l
  induction l with
  | nil => intro a h; rfl
  | cons x xs ih =>
    intro a h
    exact (List.getLast_cons (by simp)).trans (ih a (by simp))

/-- The error invariant of the loop: assuming the parents stack is a chain of
the import relation ending just above the processed import list, any error is
a genuine cycle or a genuine load failure, reachable from the stack. -/
theorem loop_err (store : Store)
    (recur : Module → ModuleKey → List ModuleKey → List ModuleKey →
      Option (Except DepsError DepsState))
    (hrec_ok : ∀ child mk P D r, recur child mk P D = some (.ok r) →
      LoopOut store child.importKeys (P ++ [mk]) D r)
    (hrec_err : ∀ child mk P D e, recur child mk P D = some (.error e) →
      store mk = some child → List.Chain' (Imp store) (P ++ [mk]) →
      ErrOut store (P ++ [mk]) e) :
    ∀ (imps P D : List ModuleKey) (e : DepsError) (hP : P ≠ []),
      List.Chain' (Imp store) P →
      (∀ n ∈ imps, Imp store (P.getLast hP) n) →
      deps_loop recur store imps P D = some (.error e) → ErrOut store P e := by
  intro imps
  induction imps with
  | nil =>
    intro P D e hP hchain himps h
    simp only [deps_loop] at h
    simp at h
  | cons mk rest ih =>
    intro P D e hP hchain himps h
    simp only [deps_loop] at h
    by_cases hmD : mk ∈ D
    · rw [if_pos hmD] at h
      exact ih P D e hP hchain (fun n hn => himps n (List.mem_cons_of_mem mk hn)) h
    · rw [if_neg hmD] at h
      by_cases hmP : mk ∈ P
      · rw [if_pos hmP] at h
        have he : DepsError.Cycle mk mk = e := Except.error.inj (Option.some.inj h)
        subst he
        refine ⟨rfl, ⟨mk, hmP, Relation.ReflTransGen.refl⟩, ?_⟩
        exact Relation.TransGen.tail'
          (chain'_to_getLast P hP mk hmP hchain)
          (himps mk (List.mem_cons_self mk rest))
      · rw [if_neg hmP] at h
        cases hsm : store mk with
        | none =>
          rw [hsm] at h
          simp only [] at h
          have he : DepsError.LoadError mk = e := Except.error.inj (Option.some.inj h)
          subst he
          exact ⟨hsm, P.getLast hP, List.getLast_mem hP,
            Relation.ReflTransGen.single (himps mk (List.mem_cons_self mk rest))⟩
        | some child =>
          rw [hsm] at h
          simp only [] at h
          cases hrc : recur child mk P D with
          | none =>
            rw [hrc] at h
            exact Option.noConfusion h
          | some ex =>
            cases ex with
            | error e1 =>
              rw [hrc] at h
              simp only [] at h
              have he : e1 = e := Except.error.inj (Option.some.inj h)
              subst he
              have hchain2 : List.Chain' (Imp store) (P ++ [mk]) :=
                chain'_snoc P hP mk hchain (himps mk (List.mem_cons_self mk rest))
              have hout := hrec_err child mk P D e1 hrc hsm hchain2
              cases e1 with
              | Cycle a b =>
                obtain ⟨hab, ⟨p, hp, hreach⟩, hcyc⟩ := hout
                refine ⟨hab, ?_, hcyc⟩
                rcases List.mem_append.mp hp with hp1 | hp1
                · exact ⟨p, hp1, hreach⟩
                · refine ⟨P.getLast hP, List.getLast_mem hP, ?_⟩
                  rw [List.mem_singleton.mp hp1] at hreach
                  exact Relation.ReflTransGen.head
                    (himps mk (List.mem_cons_self mk rest)) hreach
              | LoadError k =>
                obtain ⟨hk, p, hp, hreach⟩ := hout
                refine ⟨hk, ?_⟩
                rcases List.mem_append.mp hp with hp1 | hp1
                · exact ⟨p, hp1, hreach⟩
                · refine ⟨P.getLast hP, List.getLast_mem hP, ?_⟩
                  rw [List.mem_singleton.mp hp1] at hreach
                  exact Relation.ReflTransGen.head
                    (himps mk (List.mem_cons_self mk rest)) hreach
            | ok st =>
              rcases st with ⟨parents1, deps1⟩
              rw [hrc] at h
              simp only [] at h
              obtain ⟨hN1, _, _, _, _, _⟩ := hrec_ok child mk P D (parents1, deps1) hrc
              simp only at hN1
              rw [hN1, List.dropLast_concat] at h
              exact ih P (deps1 ++ [mk]) e hP hchain
                (fun n hn => himps n (List.mem_cons_of_mem mk hn)) h

/-- The error invariant of `deps_no_cycle`, relative to the pushed key. -/
theorem node_err (store : Store) : ∀ (fuel : Nat) (m : Module) (key : ModuleKey)
    (P D : List ModuleKey) (e : DepsError),
    deps_no_cycle store fuel m key P D = some (.error e) →
    store key = some m →
    List.Chain' (Imp store) (P ++ [key]) →
    ErrOut store (P ++ [key]) e := by
  intro fuel
  induction fuel with
  | zero => intro m key P D e h; exact Option.noConfusion h
  | succ f ih =>
    intro m key P D e h hkey hchain
    simp only [deps_no_cycle] at h
    refine loop_err store (deps_no_cycle store f)
      (fun child mk P1 D1 r1 h1 => node_inv store f child mk P1 D1 r1 h1)
      (fun child mk P1 D1 e1 h1 hsm hc => ih child mk P1 D1 e1 h1 hsm hc)
      m.importKeys (P ++ [key]) D e (by simp) hchain ?_ h
    intro n hn
    rw [getLast_snoc P key (by simp)]
    exact Imp.mk hkey hn

/-- The rank function strictly bounds the position of a member. -/
theorem idx_lt_length (l : List ModuleKey) (a : ModuleKey) (h : a ∈ l) :
    idx l a < l.length := by
  induction l with
  | nil => cases h
  | cons x xs ih =>
    by_cases hx : x = a
    · simp [idx, hx]
    · rcases List.mem_cons.mp h with rfl | h1
      · exact absurd rfl hx
      · simp only [idx, if_neg hx, List.length_cons]
        exact Nat.succ_lt_succ (ih h1)

/-- The rank of a member of the left part ignores the right part. -/
theorem idx_append_left (l₁ l₂ : List ModuleKey) (a : ModuleKey) (h : a ∈ l₁) :
    idx (l₁ ++ l₂) a = idx l₁ a := by
  induction l₁ with
  | nil => cases h
  | cons x xs ih =>
    by_cases hx : x = a
    · simp [idx, hx]
    · rcases List.mem_cons.mp h with rfl | h1
      · exact absurd rfl hx
      · simp only [List.cons_append, idx, if_neg hx, List.append_eq]
        rw [ih h1]

/-- The rank of a key absent from the left part shifts by its length. -/
theorem idx_append_right (l₁ l₂ : List ModuleKey) (a : ModuleKey) (h : a ∉ l₁) :
    idx (l₁ ++ l₂) a = l₁.length + idx l₂ a := by
  induction l₁ with
  | nil => simp [idx]
  | cons x xs ih =>
    have hx : x ≠ a := fun hxa => h (by rw [hxa]; exact List.mem_cons_self a xs)
    have h1 : a ∉ xs := fun ha => h (List.mem_cons_of_mem x ha)
    simp only [List.cons_append, idx, if_neg hx, List.length_cons, List.append_eq,
      ih h1]
    omega

/-- In a successfully gathered dependency list, every import edge strictly
decreases the rank in `deps ++ [key]`. -/
theorem edge_rank (store : Store) (deps : List ModuleKey) (key : ModuleKey)
    (root : Module)
    (hnd : deps.Nodup) (hk : key ∉ deps) (ht : TopoOk store deps)
    (hroot : store key = some root) (hrootsub : ∀ n ∈ root.importKeys, n ∈ deps) :
    ∀ a b, Imp store a b → a ∈ deps ++ [key] →
      b ∈ deps ++ [key] ∧ idx (deps ++ [key]) b < idx (deps ++ [key]) a := by
  intro a b himp ha
  obtain ⟨M, hMa, hbM⟩ := himp.exists_module
  rcases List.mem_append.mp ha with haD | haK
  · obtain ⟨pre, suf, hsplit⟩ := List.append_of_mem haD
    subst hsplit
    obtain ⟨M1, hM1, hsub⟩ := ht pre a ⟨suf, by simp⟩
    rw [hMa] at hM1
    have hMM : M = M1 := Option.some.inj hM1
    have hbpre : b ∈ pre := hsub b (by rw [← hMM]; exact hbM)
    have hL : (pre ++ a :: suf) ++ [key] = pre ++ a :: (suf ++ [key]) := by simp
    have hanotpre : a ∉ pre := by
      intro hpa
      exact (List.nodup_append.mp hnd).2.2 hpa (List.mem_cons_self a suf)
    constructor
    · exact List.mem_append.mpr (Or.inl (List.mem_append.mpr (Or.inl hbpre)))
    · rw [hL, idx_append_left pre (a :: (suf ++ [key])) b hbpre,
        idx_append_right pre (a :: (suf ++ [key])) a hanotpre]
      have h1 : idx pre b < pre.length := idx_lt_length pre b hbpre
      have h2 : idx (a :: (suf ++ [key])) a = 0 := by simp [idx]
      omega
  · rw [List.mem_singleton.mp haK] at hMa ⊢
    rw [hroot] at hMa
    have hMM : root = M := Option.some.inj hMa
    have hbdeps : b ∈ deps := hrootsub b (by rw [hMM]; exact hbM)
    constructor
    · exact List.mem_append.mpr (Or.inl hbdeps)
    · rw [idx_append_left deps [key] b hbdeps, idx_append_right deps [key] key hk]
      have h1 : idx deps b < deps.length := idx_lt_length deps b hbdeps
      have h2 : idx [key] key = 0 := by simp [idx]
      omega

/-- Rank decrease extends to transitive import paths. -/
theorem trans_rank (store : Store) (L : List ModuleKey)
    (hedge : ∀ a b, Imp store a b → a ∈ L → b ∈ L ∧ idx L b < idx L a) :
    ∀ a b, Relation.TransGen (Imp store) a b → a ∈ L →
      b ∈ L ∧ idx L b < idx L a := by
  intro a b h
  induction h with
  | single h1 => intro ha; exact hedge _ _ h1 ha
  | tail _ h2 ih =>
    intro ha
    obtain ⟨hbL, hlt⟩ := ih ha
    obtain ⟨hcL, hlt2⟩ := hedge _ _ h2 hbL
    exact ⟨hcL, hlt2.trans hlt⟩

/-- Everything reachable from a member of `L` stays inside `L`, when edges
from `L` stay in `L`. -/
theorem reach_in (store : Store) (L : List ModuleKey) (key : ModuleKey)
    (hkey : key ∈ L)
    (hedge : ∀ a b, Imp store a b → a ∈ L → b ∈ L ∧ idx L b < idx L a) :
    ∀ x, Relation.ReflTransGen (Imp store) key x → x ∈ L := by
  intro x h
  induction h with
  | refl => exact hkey
  | tail _ h2 ih => exact (hedge _ _ h2 ih).1

/-- Claim C3: assuming the store is coherent at the root (`store key` returns
the root module), (i) whenever every key reachable from the root loads and
the transitive import graph has a cycle reachable from the root, a
terminating `gather` returns `Cycle (k, k)` for some `k` — in particular no
folded module is produced; and (ii) soundness: a returned `Cycle (a, b)` has
`a = b`, with `a` reachable from the root and genuinely on an import cycle —
so an acyclic reachable graph never produces a `Cycle` error. -/
theorem gather_cycle_detection (root : Module) (store : Store) (fuel : Nat)
    (key : ModuleKey) (hroot : store key = some root) :
    (∀ r, root.gather store fuel key = some r →
      (∀ n, Relation.ReflTransGen (Imp store) key n → (store n).isSome = true) →
      (∃ c, Relation.ReflTransGen (Imp store) key c ∧
        Relation.TransGen (Imp store) c c) →
      ∃ k, r = .error (.Cycle k k)) ∧
    (∀ a b, root.gather store fuel key = some (.error (.Cycle a b)) →
      a = b ∧ Relation.ReflTransGen (Imp store) key a ∧
      Relation.TransGen (Imp store) a a) := by
  have herr : ∀ e, root.gather store fuel key = some (.error e) →
      ErrOut store [key] e := by
    intro e hg
    have hd := gather_err_inv root store fuel key e hg
    have hdc := deps_err_inv root store fuel key e hd
    exact node_err store fuel root key [] [] e hdc hroot (by simp)
  constructor
  · intro r hg hload hcyc
    cases r with
    | ok pr =>
      rcases pr with ⟨folded, deps⟩
      obtain ⟨hdeps, _⟩ := gather_ok_inv root store fuel key folded deps hg
      obtain ⟨hnd, hk, ht, hrootsub, _⟩ :=
        deps_ok_properties root store fuel key deps hdeps
      obtain ⟨c, hreach, hcyc2⟩ := hcyc
      have hedge := edge_rank store deps key root hnd hk ht hroot hrootsub
      have hkeyL : key ∈ deps ++ [key] :=
        List.mem_append.mpr (Or.inr (List.mem_singleton.mpr rfl))
      have hcL : c ∈ deps ++ [key] :=
        reach_in store (deps ++ [key]) key hkeyL hedge c hreach
      obtain ⟨_, hlt⟩ := trans_rank store (deps ++ [key]) hedge c c hcyc2 hcL
      exact absurd hlt (lt_irrefl _)
    | error e =>
      cases e with
      | Cycle a b =>
        obtain ⟨hab, _, _⟩ := herr (.Cycle a b) hg
        exact ⟨a, by rw [hab]⟩
      | LoadError k =>
        obtain ⟨hnone, p, hp, hreach⟩ := herr (.LoadError k) hg
        rw [List.mem_singleton.mp hp] at hreach
        have hsome := hload k hreach
        rw [hnone] at hsome
        exact absurd hsome (by simp)
  · intro a b hg
    obtain ⟨hab, ⟨p, hp, hreach⟩, hcyc⟩ := herr (.Cycle a b) hg
    rw [List.mem_singleton.mp hp] at hreach
    exact ⟨hab, hreach, hcyc⟩

/-- Witness for C3: the self-import `a → a` terminates with a `Cycle (a, a)`
error, via the theorem (both hypotheses discharged concretely). -/
theorem gather_cycle_detection_witness :
    ∃ k, selfModule.gather selfStore 10 "a" = some (.error (.Cycle k k)) := by
  have hstep : ∀ b c, Imp selfStore b c → c = "a" := by
    intro b c hbc
    obtain ⟨M, hM, hc⟩ := hbc.exists_module
    by_cases hb : b = "a"
    · subst hb
      have h0 : selfStore "a" = some selfModule := rfl
      rw [h0] at hM
      have hMM : selfModule = M := Option.some.inj hM
      rw [← hMM] at hc
      have hc' : c ∈ (["a"] : List ModuleKey) := hc
      simpa using hc'
    · have h0 : selfStore b = none := by simp [selfStore, hb]
      rw [h0] at hM
      exact Option.noConfusion hM
  have hload : ∀ n, Relation.ReflTransGen (Imp selfStore) "a" n →
      (selfStore n).isSome = true := by
    intro n hn
    induction hn with
    | refl => rfl
    | tail _ h2 _ => rw [hstep _ _ h2]; rfl
  have hcyc : ∃ c, Relation.ReflTransGen (Imp selfStore) "a" c ∧
      Relation.TransGen (Imp selfStore) c c :=
    ⟨"a", Relation.ReflTransGen.refl,
      Relation.TransGen.single (Imp.mk rfl (by decide))⟩
  obtain ⟨k, hk⟩ := (gather_cycle_detection selfModule selfStore 10 "a" rfl).1
    (.error (.Cycle "a" "a")) rfl hload hcyc
  refine ⟨k, ?_⟩
  rw [show selfModule.gather selfStore 10 "a" =
    some (.error (.Cycle "a" "a")) from rfl, hk]

end Spectra
